import Mathlib

/-!
Verification of the Empyrion Web Helper connection subsystem.

This development shallowly embeds the player-roster parsing/merging pipeline
(`connection.py`: `get_players`, `_parse_connected_player`, `_parse_online_player`,
`_parse_global_player`, `_merge_player_data`), the command/probe layer
(`send_command`, `is_connection_alive`), the authentication sequence of
`connect`, and the background service's reconnect accounting
(`background_service.py`: `_monitor_loop`, `_attempt_connection`,
`_handle_connection_error`, `_get_update_interval`).

Python strings are modelled as Lean `String` (ASCII fragment); machine
integers do not overflow in the embedded fragment, so `Nat`/`Int` are used
directly.  Fallible Python code (statements that may raise and are observed by
callers) is modelled with `Except`/`Option`.
-/

namespace EWH

/-! ### Python-flavoured character and string helpers -/

/-- Python whitespace class used by `str.strip` and the regex class `\s`
(ASCII fragment). -/
def pySpace (c : Char) : Bool :=
  c = ' ' || c = '\t' || c = '\n' || c = '\r' || c = '\x0b' || c = '\x0c'

/-- ASCII decimal digit, the regex class `\d` on ASCII input. -/
def pyDigit (c : Char) : Bool :=
  '0' ≤ c && c ≤ '9'

/-- Regex class `\w` on ASCII input. -/
def pyWord (c : Char) : Bool :=
  pyDigit c || ('a' ≤ c && c ≤ 'z') || ('A' ≤ c && c ≤ 'Z') || c = '_'

/-- Python `str.strip()` on a character list: drop whitespace on both ends. -/
def pyStripChars (cs : List Char) : List Char :=
  ((cs.dropWhile pySpace).reverse.dropWhile pySpace).reverse

/-- Python `str.strip()` for `String`. -/
def pyStrip (s : String) : String :=
  String.mk (pyStripChars s.data)

/-- Python `str.lower()` (ASCII fragment). -/
def pyLower (s : String) : String :=
  String.mk (s.data.map Char.toLower)

/-- Does `needle` occur at the head of `hay`? -/
def startsWithChars : List Char → List Char → Bool
  | [], _ => true
  | _ :: _, [] => false
  | a :: as, b :: bs => a = b && startsWithChars as bs

/-- Python `needle in hay` substring test on character lists. -/
def containsChars (needle : List Char) : List Char → Bool
  | [] => startsWithChars needle []
  | hay@(_ :: tl) => startsWithChars needle hay || containsChars needle tl

/-- Python `needle in hay` for strings. -/
def containsSub (hay needle : String) : Bool :=
  containsChars needle.data hay.data

/-- Python `hay.startswith(needle)` for strings. -/
def pyStartsWith (hay needle : String) : Bool :=
  startsWithChars needle.data hay.data

/-- Python `str.lstrip('-')`: drop every leading dash. -/
def lstripDash (s : String) : String :=
  String.mk (s.data.dropWhile (· = '-'))

/-- Python `str.isdigit()` (ASCII fragment): nonempty and all digits. -/
def isPyDigitStr (s : String) : Bool :=
  !s.data.isEmpty && s.data.all pyDigit

/-- Numeric value of a digit list (most significant first). -/
def digitsVal (cs : List Char) : Nat :=
  cs.foldl (fun acc c => acc * 10 + (c.toNat - '0'.toNat)) 0

/-- Valid continuation of a Python integer-literal digit part: digits with
single underscores that must be followed by a digit. -/
def digitPartRest : List Char → Bool
  | [] => true
  | c :: cs =>
    if c = '_' then
      match cs with
      | [] => false
      | d :: cs' => pyDigit d && digitPartRest cs'
    else pyDigit c && digitPartRest cs

/-- Valid Python integer-literal digit part: a digit followed by digits and
single interior underscores. -/
def digitPartOk : List Char → Bool
  | [] => false
  | c :: cs => pyDigit c && digitPartRest cs

/-- Value of a digit part, ignoring underscores. -/
def digitPartVal (cs : List Char) : Nat :=
  digitsVal (cs.filter (· ≠ '_'))

/-- Python `int(s)` on a string: strip whitespace, optional single sign, then
a digit part; `none` models `ValueError`. -/
def pyIntOfChars : List Char → Option Int
  | [] => none
  | c :: rest =>
    if c = '+' then
      if digitPartOk rest then some (Int.ofNat (digitPartVal rest)) else none
    else if c = '-' then
      if digitPartOk rest then some (-(Int.ofNat (digitPartVal rest))) else none
    else
      if digitPartOk (c :: rest) then some (Int.ofNat (digitPartVal (c :: rest))) else none

def pyIntOfString (s : String) : Option Int :=
  pyIntOfChars (pyStripChars s.data)

/-! ### Player records

A Python player dict from the three `plys` parsers.  Every parser emits the
keys `steam_id`, `name`, `status`, `faction`, `role`, `playfield`,
`ip_address` and `ping`; only `_parse_global_player` adds `total_playtime`,
so that key is modelled with `Option` (`none` = key absent). -/

structure Player where
  steam_id : String
  name : String
  status : String
  playfield : String
  ip_address : String
  faction : String
  role : String
  ping : Nat
  total_playtime : Option Nat
deriving DecidableEq, Repr

/-! ### `_merge_player_data` -/

/-- The negative-id skip test from `_merge_player_data`:
`steam_id.lstrip('-').isdigit() and int(steam_id) < 0`.
`.ok true` means the record is skipped; `.error ()` models the `ValueError`
raised by `int` on inputs such as `"--5"` (digits after stripping dashes but
more than one leading dash). -/
def negSkip (sid : String) : Except Unit Bool :=
  if isPyDigitStr (lstripDash sid) then
    match pyIntOfString sid with
    | some n => .ok (decide (n < 0))
    | none => .error ()
  else .ok false

/-- Truthiness of `player.get('total_playtime')`: falsy when the key is
absent or the value is `0`. -/
def tpFalsy (p : Player) : Bool :=
  p.total_playtime = none || p.total_playtime = some 0

/-- First pass of `_merge_player_data`: collect `connected_steam_ids`
(records with a non-empty `ip_address` or `playfield`) and
`online_steam_ids` (records with `status == 'Online'` and falsy
`total_playtime`), skipping falsy and negative ids. -/
def firstPass : List Player → Except Unit (List String × List String)
  | [] => .ok ([], [])
  | p :: ps =>
    if p.steam_id = "" then firstPass ps
    else
      match negSkip p.steam_id with
      | .error e => .error e
      | .ok true => firstPass ps
      | .ok false =>
        match firstPass ps with
        | .error e => .error e
        | .ok (conn, onl) =>
          .ok ((if p.ip_address ≠ "" || p.playfield ≠ "" then p.steam_id :: conn else conn),
               (if p.status = "Online" && tpFalsy p then p.steam_id :: onl else onl))

/-- Field-by-field merge of an incoming record into an existing one,
mirroring the `for key, value in player.items()` loop: a truthy incoming
value overwrites a falsy existing one; `status` always overwrites;
`ip_address`/`playfield` also overwrite when the incoming value has
non-whitespace content. -/
def mergeInto (ex p : Player) : Player where
  steam_id := if p.steam_id ≠ "" && ex.steam_id = "" then p.steam_id else ex.steam_id
  name := if p.name ≠ "" && ex.name = "" then p.name else ex.name
  status := if p.status ≠ "" then p.status else ex.status
  playfield :=
    if p.playfield ≠ "" && (ex.playfield = "" || pyStrip p.playfield ≠ "") then p.playfield
    else ex.playfield
  ip_address :=
    if p.ip_address ≠ "" && (ex.ip_address = "" || pyStrip p.ip_address ≠ "") then p.ip_address
    else ex.ip_address
  faction := if p.faction ≠ "" && ex.faction = "" then p.faction else ex.faction
  role := if p.role ≠ "" && ex.role = "" then p.role else ex.role
  ping := if p.ping ≠ 0 && ex.ping = 0 then p.ping else ex.ping
  total_playtime :=
    match p.total_playtime with
    | none => ex.total_playtime
    | some n =>
      if n ≠ 0 && (ex.total_playtime = none || ex.total_playtime = some 0) then some n
      else ex.total_playtime

/-- Lookup in the insertion-ordered dict modelling `merged`. -/
def alGet (d : List (String × Player)) (k : String) : Option Player :=
  match d.find? (fun kv => kv.1 = k) with
  | some kv => some kv.2
  | none => none

/-- In-place value update for key `k` (Python `merged[steam_id] = ...` on an
existing key keeps its position). -/
def alSet (d : List (String × Player)) (k : String) (v : Player) : List (String × Player) :=
  d.map (fun kv => if kv.1 = k then (k, v) else kv)

/-- Second pass of `_merge_player_data`: build the insertion-ordered `merged`
dict, merging records that share a `steam_id`. -/
def secondPassGo (acc : List (String × Player)) : List Player → Except Unit (List (String × Player))
  | [] => .ok acc
  | p :: ps =>
    if p.steam_id = "" then secondPassGo acc ps
    else
      match negSkip p.steam_id with
      | .error e => .error e
      | .ok true => secondPassGo acc ps
      | .ok false =>
        match alGet acc p.steam_id with
        | some ex => secondPassGo (alSet acc p.steam_id (mergeInto ex p)) ps
        | none => secondPassGo (acc ++ [(p.steam_id, p)]) ps

def secondPass (ps : List Player) : Except Unit (List (String × Player)) :=
  secondPassGo [] ps

/-- The final status of id `k` given the two id sets of the first pass. -/
def statusOf (conn onl : List String) (k : String) : String :=
  if conn.contains k then "Online"
  else if onl.contains k then "Online"
  else "Offline"

/-- Third pass: final status resolution from the two id sets. -/
def thirdPass (conn onl : List String) (d : List (String × Player)) : List (String × Player) :=
  d.map (fun kv => (kv.1, { kv.2 with status := statusOf conn onl kv.1 }))

/-- Sort key comparison from
`result.sort(key=lambda p: (p['status'] != 'Online', p['name'].lower()))`:
lexicographic on the bool (False < True) then the lowercased name. -/
def lexLeChars : List Char → List Char → Bool
  | [], _ => true
  | _ :: _, [] => false
  | a :: as, b :: bs => if a = b then lexLeChars as bs else decide (a < b)

def sortLe (p q : Player) : Bool :=
  if (decide (p.status ≠ "Online")) = (decide (q.status ≠ "Online")) then
    lexLeChars (pyLower p.name).data (pyLower q.name).data
  else decide (q.status ≠ "Online")

/-- The sort relation as a decidable proposition. -/
def rosterLE (p q : Player) : Prop := sortLe p q = true

instance : DecidableRel rosterLE := fun p q => inferInstanceAs (Decidable (sortLe p q = true))

/-- Function `_merge_player_data`: the three passes followed by the sort.  Python's
`list.sort` is a stable sort by the key tuple; it is modelled by the equally
stable structural `List.insertionSort` over the same ordering.  `.error ()`
models the uncaught `ValueError` (propagated to `get_players`' handler). -/
def mergePlayerData (ps : List Player) : Except Unit (List Player) :=
  match firstPass ps with
  | .error e => .error e
  | .ok (conn, onl) =>
    match secondPass ps with
    | .error e => .error e
    | .ok d => .ok (List.insertionSort rosterLE ((thirdPass conn onl d).map Prod.snd))

/-! ### `_parse_connected_player`

The regex `^\s*\d+:\s*(\d+),\s*([^,]+),\s*([^,]+),\s*([^|]+)` applied with
`re.match` is deterministic on this pattern shape: adjacent parts have
disjoint character classes except for the `\s*([^,]+)` / `\s*([^|]+)` pairs,
where the only effect of backtracking is that a group may begin inside the
whitespace run; since the code immediately applies `.strip()` to every group,
a field's final value is the stripped text between delimiters, and a field
fails to match exactly when that text is empty (before stripping). -/

/-- Maximal run of ASCII digits (at least one) and the remaining input. -/
def takeDigitRun (cs : List Char) : Option (List Char × List Char) :=
  let ds := cs.takeWhile pyDigit
  if ds.isEmpty then none else some (ds, cs.drop ds.length)

/-- Field of the form `\s*([^,]+),`: text before the next comma (which must
exist and be nonempty before stripping); yields the stripped group and the
input after the comma. -/
def fieldBeforeComma (cs : List Char) : Option (List Char × List Char) :=
  let w := cs.takeWhile (· ≠ ',')
  match cs.drop w.length with
  | ',' :: rest => if w.isEmpty then none else some (pyStripChars w, rest)
  | _ => none

/-- Final field `\s*([^|]+)`: text before the first `|` (or the line end),
nonempty before stripping. -/
def fieldBeforePipe (cs : List Char) : Option (List Char) :=
  let w := cs.takeWhile (· ≠ '|')
  if w.isEmpty then none else some (pyStripChars w)

/-- Require literal character `c` at the head of the input. -/
def expectChar (c : Char) (cs : List Char) : Option (List Char) :=
  match cs with
  | [] => none
  | c' :: rest => if c' = c then some rest else none

/-- Core matcher for the connected-section pattern; yields
`(steam_id, name, playfield, ip_address)`, each already stripped. -/
def connMatch (cs : List Char) : Option (String × String × String × String) :=
  (takeDigitRun (cs.dropWhile pySpace)).bind (fun pr1 =>
    (expectChar ':' pr1.2).bind (fun cs2 =>
      (takeDigitRun (cs2.dropWhile pySpace)).bind (fun pr2 =>
        (expectChar ',' pr2.2).bind (fun cs4 =>
          (fieldBeforeComma cs4).bind (fun nmr =>
            (fieldBeforeComma nmr.2).bind (fun pfr =>
              (fieldBeforePipe pfr.2).map (fun ip =>
                (String.mk pr2.1, String.mk nmr.1, String.mk pfr.1, String.mk ip))))))))

/-- Parser `_parse_connected_player`. -/
def parseConnectedLine (line : String) : Option Player :=
  if containsSub line "C-Id:" || containsSub line "---" || pyStrip line = "" then none
  else
    match connMatch line.data with
    | none => none
    | some (sid, nm, pf, ip) =>
      some { steam_id := sid, name := nm, status := "Online", playfield := pf,
             ip_address := ip, faction := "", role := "", ping := 0, total_playtime := none }

/-! ### `_parse_online_player` / `_parse_global_player`

`re.search` with these patterns scans for the leftmost start position from
which the whole pattern matches; each helper below mirrors that scan. -/

/-- Search `re.search(key + '(\d+)', line)` for a literal `key`: at the leftmost
position where `key` is followed by at least one digit, the maximal digit
run. -/
def searchKeyDigits (key : List Char) : List Char → Option (List Char)
  | [] => none
  | cs@(_ :: tl) =>
    if startsWithChars key cs then
      let ds := (cs.drop key.length).takeWhile pyDigit
      if ds.isEmpty then searchKeyDigits key tl else some ds
    else searchKeyDigits key tl

/-- Search in the style of `re.search('role=(\w+)', line)`: leftmost `key` followed by
at least one word character, maximal run. -/
def searchKeyWord (key : List Char) : List Char → Option (List Char)
  | [] => none
  | cs@(_ :: tl) =>
    if startsWithChars key cs then
      let ws := (cs.drop key.length).takeWhile pyWord
      if ws.isEmpty then searchKeyWord key tl else some ws
    else searchKeyWord key tl

/-- Tail test for the lazy name pattern: `\s+fac=` — a nonempty whitespace
run followed immediately by `fac=` (inside a whitespace run `fac=` can only
start at its end, so the greedy `\s+` is deterministic here). -/
def wsFacOk (cs : List Char) : Bool :=
  let ws := cs.takeWhile pySpace
  !ws.isEmpty && startsWithChars ['f', 'a', 'c', '='] (cs.drop ws.length)

/-- Lazy group `([^f]+?)` of `name=([^f]+?)(?:\s+fac=)`: grow the group one
non-`f` character at a time, stopping at the first point where `\s+fac=`
follows. -/
def nameLazyGo : List Char → List Char → Option (List Char)
  | [], _ => none
  | c :: rest, acc =>
    if c = 'f' then none
    else
      let acc' := acc ++ [c]
      if wsFacOk rest then some acc' else nameLazyGo rest acc'

/-- Search `re.search(r'name=([^f]+?)(?:\s+fac=)', line)`. -/
def nameFacSearch : List Char → Option (List Char)
  | [] => none
  | cs@(_ :: tl) =>
    if startsWithChars ['n', 'a', 'm', 'e', '='] cs then
      match nameLazyGo (cs.drop 5) [] with
      | some g => some g
      | none => nameFacSearch tl
    else nameFacSearch tl

/-- Fallback `re.search(r'name=([^\s]+)', line)`. -/
def nameSimpleSearch : List Char → Option (List Char)
  | [] => none
  | cs@(_ :: tl) =>
    if startsWithChars ['n', 'a', 'm', 'e', '='] cs then
      let w := (cs.drop 5).takeWhile (fun c => !pySpace c)
      if w.isEmpty then nameSimpleSearch tl else some w
    else nameSimpleSearch tl

/-- Search `re.search(r'fac=\[([^\]]+)\]', line)`: leftmost `fac=[` whose bracket
closes after at least one character. -/
def facSearch : List Char → Option (List Char)
  | [] => none
  | cs@(_ :: tl) =>
    if startsWithChars ['f', 'a', 'c', '=', '['] cs then
      let rest := cs.drop 5
      let w := rest.takeWhile (· ≠ ']')
      match rest.drop w.length with
      | ']' :: _ => if w.isEmpty then facSearch tl else some w
      | _ => facSearch tl
    else facSearch tl

/-- Name extraction shared by the online and global parsers:
primary pattern, then fallback, then the literal `'Unknown'`; the chosen
group is stripped. -/
def extractName (cs : List Char) : String :=
  match nameFacSearch cs with
  | some g => String.mk (pyStripChars g)
  | none =>
    match nameSimpleSearch cs with
    | some w => String.mk (pyStripChars w)
    | none => "Unknown"

/-- Parser `_parse_online_player`. -/
def parseOnlineLine (line : String) : Option Player :=
  match searchKeyDigits ['i', 'd', '='] line.data with
  | none => none
  | some sid =>
    some { steam_id := String.mk sid,
           name := extractName line.data,
           status := "Online",
           faction := (facSearch line.data).elim "" String.mk,
           role := (searchKeyWord ['r', 'o', 'l', 'e', '='] line.data).elim "" String.mk,
           playfield := "", ip_address := "", ping := 0, total_playtime := none }

/-- Parser `_parse_global_player`. -/
def parseGlobalLine (line : String) : Option Player :=
  match searchKeyDigits ['i', 'd', '='] line.data with
  | none => none
  | some sid =>
    some { steam_id := String.mk sid,
           name := extractName line.data,
           status := "Offline",
           faction := (facSearch line.data).elim "" String.mk,
           role := (searchKeyWord ['r', 'o', 'l', 'e', '='] line.data).elim "" String.mk,
           playfield := "", ip_address := "", ping := 0,
           total_playtime :=
             some ((searchKeyDigits ['o', 'n', 'l', 'i', 'n', 'e', '='] line.data).elim 0 digitsVal) }

/-! ### The section loop of `get_players` -/

inductive PSection where
  | connected
  | online
  | globalList
deriving DecidableEq, Repr

/-- One step of the section loop: parse a (pre-stripped, nonempty,
non-marker) data line in the current section. -/
def parseSectionLine (sec : PSection) (line : String) : Option Player :=
  match sec with
  | .connected => parseConnectedLine line
  | .online => parseOnlineLine line
  | .globalList => parseGlobalLine line

/-- The line loop of `get_players`, tagged with the section each record was
parsed in (the tag records which parser branch appended the record). -/
def parsePlysLines (cur : Option PSection) : List String → List (PSection × Player)
  | [] => []
  | l :: ls =>
    if pyStrip l = "" then parsePlysLines cur ls
    else if containsSub (pyStrip l) "Players connected" then
      parsePlysLines (some .connected) ls
    else if containsSub (pyStrip l) "Global online players list" then
      parsePlysLines (some .online) ls
    else if containsSub (pyStrip l) "Global players list" then
      parsePlysLines (some .globalList) ls
    else if pyStartsWith (pyStrip l) "---" || pyStartsWith (pyStrip l) "Available commands"
            || containsSub (pyStrip l) "C-Id:" then parsePlysLines cur ls
    else
      match cur with
      | none => parsePlysLines cur ls
      | some sec =>
        match parseSectionLine sec (pyStrip l) with
        | some p => (sec, p) :: parsePlysLines cur ls
        | none => parsePlysLines cur ls

/-- Python `response.split('\n')` on the character level: split at every
newline, keeping empty segments (`''.split('\n') == ['']`). -/
def splitNewlines : List Char → List (List Char)
  | [] => [[]]
  | c :: rest =>
    let r := splitNewlines rest
    if c = '\n' then [] :: r
    else
      match r with
      | [] => [[c]]
      | l :: ls => (c :: l) :: ls

/-- Python `response.split('\n')` for strings. -/
def pyLines (s : String) : List String :=
  (splitNewlines s.data).map String.mk

/-- Parsing stage of `get_players` on a raw `plys` response. -/
def parsePlys (response : String) : List (PSection × Player) :=
  parsePlysLines none (pyLines response)

/-- The parsed records of a response, untagged (the `players` list fed to
`_merge_player_data`). -/
def parsedPlayers (resp : String) : List Player :=
  (parsePlys resp).map Prod.snd

/-- Parsing plus merging, as performed by `get_players` on a received
response text. -/
def plysRoster (response : String) : Except Unit (List Player) :=
  mergePlayerData (parsedPlayers response)

/-! ### `send_command` and its callers

The socket itself is external; a command exchange is modelled by the
environment's behaviour for that exchange: either the write raises
(`raiseOnSend`) or the write succeeds and `_receive_data` returns `data`
(possibly empty — `_receive_data` catches its own errors and returns `""`).
-/

structure Conn where
  is_connected : Bool
  has_socket : Bool
deriving DecidableEq, Repr

inductive CmdEnv where
  | ok (data : String)
  | raiseOnSend
deriving DecidableEq, Repr

/-- Results of `send_command`: a non-empty response string, `None`, or the
error dict `{'success': False, 'message': ...}` returned from its `except`
handler. -/
inductive CmdResult where
  | val (s : String)
  | noneVal
  | errDict
deriving DecidableEq, Repr

/-- Method `send_command`: `None` when not connected or no socket; on a send
exception, mark disconnected and return the error dict; otherwise return the
stripped received data when non-empty and `None` when empty
(`_receive_data` strips before returning). -/
def sendCommand (c : Conn) (env : CmdEnv) : Conn × CmdResult :=
  if !c.is_connected || !c.has_socket then (c, .noneVal)
  else
    match env with
    | .raiseOnSend => ({ c with is_connected := false }, .errDict)
    | .ok data =>
      let response := pyStrip data
      if response ≠ "" then (c, .val response) else (c, .noneVal)

/-- Method `get_players`: issue `plys`; on `None` return `[]`; on the error dict the
subsequent `response.split('\n')` raises `AttributeError`, caught by the
surrounding handler which returns an error dict (modelled `.error ()`);
otherwise parse and merge the response. -/
def getPlayers (c : Conn) (env : CmdEnv) : Conn × Except Unit (List Player) :=
  match sendCommand c env with
  | (c', .noneVal) => (c', .ok [])
  | (c', .errDict) => (c', .error ())
  | (c', .val s) =>
    match plysRoster s with
    | .ok roster => (c', .ok roster)
    | .error e => (c', .error e)

/-- Method `is_connection_alive`: early `False` when not connected; otherwise issue
the `help` probe via `send_command` and return `response is not None` —
note the error dict is not `None`, so a send failure yields `True`. -/
def isConnectionAlive (c : Conn) (env : CmdEnv) : Conn × Bool :=
  if !c.is_connected || !c.has_socket then (c, false)
  else
    match sendCommand c env with
    | (c', .val _) => (c', true)
    | (c', .noneVal) => (c', false)
    | (c', .errDict) => (c', true)

/-! ### `connect` and the authentication strategies

A strategy exchange writes raw bytes and reads once via `_receive_data`;
its environment behaviour is either a raised send (`ProbeOutcome.raises`,
caught by the strategy's own handler) or received data. -/

inductive ProbeOutcome where
  | raises
  | resp (s : String)
deriving DecidableEq, Repr

/-- Success predicate of `_auth_standard` (and `_auth_newline_only`, which
differs only in the bytes written): the stripped reply is truthy and
contains `'Logged in successfully'`. -/
def authMarkerOk (o : ProbeOutcome) : Bool :=
  match o with
  | .raises => false
  | .resp s =>
    let r := pyStrip s
    r ≠ "" && containsSub r "Logged in successfully"

/-- Success predicate of `_auth_direct_command`: the stripped reply is truthy
and contains `'Available commands'` or, lower-cased, `'help'`. -/
def authDirectOk (o : ProbeOutcome) : Bool :=
  match o with
  | .raises => false
  | .resp s =>
    let r := pyStrip s
    r ≠ "" && (containsSub r "Available commands" || containsSub (pyLower r) "help")

/-- The fixed username candidates of `_auth_username_password`. -/
def usernameCandidates : List String := ["admin", "rcon", "server"]

/-- Strategy `_auth_username_password`: try each username followed by the credential;
the first marker reply wins; a raised send aborts the whole strategy with
`False` (its `try` wraps the loop). -/
def authUserPassGo (reply : String → ProbeOutcome) : List String → Bool
  | [] => false
  | u :: us =>
    match reply u with
    | .raises => false
    | .resp s =>
      let r := pyStrip s
      if r ≠ "" && containsSub r "Logged in successfully" then true
      else authUserPassGo reply us

/-- Environment for one `connect` call: the reply behaviour of each
authentication exchange, and the socket behaviour of the post-auth `help`
verification command as issued after strategy `i` succeeds. -/
structure AuthEnv where
  standard : ProbeOutcome
  direct : ProbeOutcome
  userpass : String → ProbeOutcome
  newline : ProbeOutcome
  verify : Nat → CmdEnv

/-- The ordered strategy table `auth_methods` of `connect`. -/
def authMethodNames : List String :=
  ["standard", "direct_command", "username_password", "newline_only"]

/-- Whether strategy `i`'s success predicate holds in `env`. -/
def authMethodOk (env : AuthEnv) : Nat → Bool
  | 0 => authMarkerOk env.standard
  | 1 => authDirectOk env.direct
  | 2 => authUserPassGo env.userpass usernameCandidates
  | 3 => authMarkerOk env.newline
  | _ => false

structure ConnectResult where
  success : Bool
  finalConn : Conn
  attempted : List String
deriving Repr

/-- The strategy loop of `connect`, performing strategies `i, i+1, ...` with
`fuel` strategies remaining after `i`, in connection state `c` and with the
already-tried method names in `tried`.  After a successful strategy,
`is_connected` is set and the `help` verification command is issued through
`send_command`; a string reply or `None` is only logged and `connect`
returns `True`, but the error dict makes `test_result.lower()` raise
`AttributeError`, which the loop's `except` turns into `continue`.  When the
strategies are exhausted, `disconnect()` closes the socket and `connect`
returns `False`. -/
def connectStep (env : AuthEnv) : Nat → Nat → Conn → List String → ConnectResult
  | 0, i, c, tried =>
    if authMethodOk env i then
      match sendCommand { c with is_connected := true } (env.verify i) with
      | (_, .errDict) => ⟨false, ⟨false, false⟩, tried ++ [authMethodNames.getD i ""]⟩
      | (c2, _) => ⟨true, c2, tried ++ [authMethodNames.getD i ""]⟩
    else ⟨false, ⟨false, false⟩, tried ++ [authMethodNames.getD i ""]⟩
  | fuel + 1, i, c, tried =>
    if authMethodOk env i then
      match sendCommand { c with is_connected := true } (env.verify i) with
      | (c2, .errDict) => connectStep env fuel (i + 1) c2 (tried ++ [authMethodNames.getD i ""])
      | (c2, _) => ⟨true, c2, tried ++ [authMethodNames.getD i ""]⟩
    else connectStep env fuel (i + 1) c (tried ++ [authMethodNames.getD i ""])

/-- Method `connect` from the point where the TCP socket is open and the optional
welcome banner has been read and discarded. -/
def pyConnect (env : AuthEnv) : ConnectResult :=
  connectStep env 3 0 ⟨false, true⟩ []

/-! ### `BackgroundService`: reconnect accounting and the monitor tick -/

/-- Constant `RECONNECT_DELAY` (seconds). -/
def reconnectBaseDelay : Nat := 30

/-- Constant `MAX_RECONNECT_DELAY` (seconds). -/
def maxReconnectDelay : Nat := 300

/-- The backoff delay computed by `_handle_connection_error` for a given
value of `reconnect_attempts`:
`min(RECONNECT_DELAY * (2 ** min(attempts - 1, 3)), MAX_RECONNECT_DELAY)`. -/
def reconnectDelay (attempts : Nat) : Nat :=
  min (reconnectBaseDelay * 2 ^ (min (attempts - 1) 3)) maxReconnectDelay

/-- The service state fields involved in reconnect accounting. -/
structure SvcState where
  is_connected : Bool
  has_handler : Bool
  reconnect_attempts : Nat
deriving DecidableEq, Repr

/-- Counter mutations performed on `reconnect_attempts`, tagged with the
program point that performs them. -/
inductive CounterEvent where
  /-- `_handle_connection_error` reached from a failed `_attempt_connection`. -/
  | incrOnConnectFail
  /-- `_handle_connection_error` reached from `_monitor_players` after a
  failed roster poll (error response or exception). -/
  | incrOnPollFail
  /-- `reconnect_attempts = 0` in `_attempt_connection` after
  `connect()` returned `True`. -/
  | resetOnConnectSuccess
  /-- The unconditional `reconnect_attempts = 0` in `_monitor_loop` after
  `_monitor_players` returns. -/
  | resetAfterMonitor
deriving DecidableEq, Repr

/-- Method `_handle_connection_error`: mark disconnected, drop the handler,
increment the counter (the computed backoff delay is only logged). -/
def handleConnectionError (s : SvcState) : SvcState :=
  { is_connected := false, has_handler := false,
    reconnect_attempts := s.reconnect_attempts + 1 }

/-- Environment outcomes consumed by one monitor tick. -/
structure TickEnv where
  /-- `connection_handler.connect()` returns `True`. -/
  connectOk : Bool
  /-- `connection_handler.is_connection_alive()` result. -/
  alive : Bool
  /-- `_monitor_players` completes without invoking
  `_handle_connection_error` (roster poll and persistence succeed). -/
  pollOk : Bool
deriving DecidableEq, Repr

/-- Method `_attempt_connection` (service running, password present): on success
set connected state and zero the counter, on failure run
`_handle_connection_error`. -/
def attemptConnection (s : SvcState) (connectOk : Bool) : SvcState × List CounterEvent :=
  if connectOk then
    ({ is_connected := true, has_handler := true, reconnect_attempts := 0 },
     [.resetOnConnectSuccess])
  else (handleConnectionError s, [.incrOnConnectFail])

/-- Method `_monitor_players` (service running, handler present): a failed poll
runs `_handle_connection_error`; its own `except` swallows every exception,
so it never propagates one. -/
def monitorPlayers (s : SvcState) (pollOk : Bool) : SvcState × List CounterEvent :=
  if pollOk then (s, []) else (handleConnectionError s, [.incrOnPollFail])

/-- One iteration of the `_monitor_loop` body while the service is running
and not stopping, together with the ordered list of counter mutations it
performs. -/
def monitorTick (s : SvcState) (env : TickEnv) : SvcState × List CounterEvent :=
  let step1 : SvcState × List CounterEvent :=
    if !s.is_connected || !s.has_handler then attemptConnection s env.connectOk
    else if !env.alive then
      attemptConnection { s with is_connected := false, has_handler := false } env.connectOk
    else (s, [])
  let s1 := step1.1
  if s1.is_connected && s1.has_handler then
    let step2 := monitorPlayers s1 env.pollOk
    ({ step2.1 with reconnect_attempts := 0 },
     step1.2 ++ step2.2 ++ [.resetAfterMonitor])
  else step1

/-- Run a sequence of monitor ticks, accumulating the counter mutations. -/
def runTicks (s : SvcState) : List TickEnv → SvcState × List CounterEvent
  | [] => (s, [])
  | e :: es =>
    let step := monitorTick s e
    let rest := runTicks step.1 es
    (rest.1, step.2 ++ rest.2)

/-! ### `_get_update_interval` -/

/-- A Python value read from the config for `update_interval`. -/
inductive PyVal where
  | noneVal
  | intVal (n : Int)
  | strVal (s : String)
deriving DecidableEq, Repr

def pyTruthy : PyVal → Bool
  | .noneVal => false
  | .intVal n => n ≠ 0
  | .strVal s => s ≠ ""

/-- Python `int(x)` on such a value; `none` models `ValueError`/`TypeError`,
both caught by `_get_update_interval`. -/
def pyIntCast : PyVal → Option Int
  | .noneVal => none
  | .intVal n => some n
  | .strVal s => pyIntOfString s

/-- Method `_get_update_interval`: a falsy value falls through to the default 20;
an unconvertible value is caught and yields 20; a converted value below the
minimum 10 yields 20; otherwise the converted value is used. -/
def getUpdateInterval (v : PyVal) : Int :=
  if pyTruthy v then
    match pyIntCast v with
    | none => 20
    | some n => if n < 10 then 20 else n
  else 20

/-! ## Claim C2: reconnect backoff delay -/

/-- C2: the reconnect backoff delay equals
`min(30 * 2^min(attempt-1, 3), 300)` for every attempt ≥ 1; consequently
`delay 1 < delay 2 < delay 3 < delay 4 = delay 5`, and every delay value
lies within `[30, 300]`. -/
theorem c2_reconnect_delay_spec :
    (∀ a : Nat, 1 ≤ a →
      reconnectDelay a = min (30 * 2 ^ (min (a - 1) 3)) 300 ∧
      30 ≤ reconnectDelay a ∧ reconnectDelay a ≤ 300) ∧
    (reconnectDelay 1 < reconnectDelay 2 ∧ reconnectDelay 2 < reconnectDelay 3 ∧
     reconnectDelay 3 < reconnectDelay 4 ∧ reconnectDelay 4 = reconnectDelay 5) := by
  have hb : ∀ a : Nat, 30 ≤ reconnectDelay a ∧ reconnectDelay a ≤ 300 := by
    intro a
    have h : min (a - 1) 3 = 0 ∨ min (a - 1) 3 = 1 ∨ min (a - 1) 3 = 2 ∨
        min (a - 1) 3 = 3 := by omega
    unfold reconnectDelay reconnectBaseDelay maxReconnectDelay
    rcases h with h | h | h | h <;> rw [h] <;> exact ⟨by norm_num, by norm_num⟩
  exact ⟨fun a _ => ⟨rfl, (hb a).1, (hb a).2⟩, by decide⟩

/-- Witness for C2 at the concrete attempt 6. -/
theorem c2_reconnect_delay_spec_witness :
    reconnectDelay 6 = min (30 * 2 ^ (min (6 - 1) 3)) 300 ∧
    30 ≤ reconnectDelay 6 ∧ reconnectDelay 6 ≤ 300 :=
  c2_reconnect_delay_spec.1 6 (by decide)

/-! ## Claim C9: monitor interval validation -/

/-- C9: the configured tick interval is always at least the minimum of 10
seconds: a missing, non-numeric, or below-minimum value yields the default
20, and any integer value ≥ 10 is used unchanged. -/
theorem c9_update_interval_spec :
    (∀ v : PyVal, 10 ≤ getUpdateInterval v) ∧
    getUpdateInterval .noneVal = 20 ∧
    (∀ v : PyVal, pyTruthy v = true → pyIntCast v = none → getUpdateInterval v = 20) ∧
    (∀ (v : PyVal) (n : Int), pyIntCast v = some n → n < 10 → getUpdateInterval v = 20) ∧
    (∀ n : Int, 10 ≤ n → getUpdateInterval (.intVal n) = n) := by
  refine ⟨?_, rfl, ?_, ?_, ?_⟩
  · intro v
    unfold getUpdateInterval
    by_cases ht : pyTruthy v = true
    · rw [if_pos ht]
      cases hc : pyIntCast v with
      | none => norm_num
      | some n =>
        show 10 ≤ if n < 10 then (20 : Int) else n
        by_cases hn : n < 10
        · rw [if_pos hn]; norm_num
        · rw [if_neg hn]; omega
    · rw [if_neg ht]; norm_num
  · intro v ht hc
    unfold getUpdateInterval
    rw [if_pos ht, hc]
  · intro v n hc hn
    unfold getUpdateInterval
    by_cases ht : pyTruthy v = true
    · rw [if_pos ht, hc]
      show (if n < 10 then (20 : Int) else n) = 20
      rw [if_pos hn]
    · rw [if_neg ht]
  · intro n h10
    have ht : pyTruthy (.intVal n) = true := by
      simp only [pyTruthy, ne_eq, decide_eq_true_eq]; omega
    unfold getUpdateInterval
    rw [if_pos ht]
    show (if n < 10 then (20 : Int) else n) = n
    rw [if_neg (by omega)]

/-- Witness for C9: a non-numeric string falls back to 20 and an integer
above the minimum is used unchanged. -/
theorem c9_update_interval_spec_witness :
    getUpdateInterval (.strVal "abc") = 20 ∧ getUpdateInterval (.intVal 15) = 15 :=
  ⟨c9_update_interval_spec.2.2.1 (.strVal "abc") (by decide) (by decide),
   c9_update_interval_spec.2.2.2.2 15 (by decide)⟩

/-! ## Claim C8: `is_connection_alive`

The claim states `isAlive()` is true iff a non-empty reply was received and
that a send/receive failure yields false.  The code returns
`response is not None`, and `send_command` returns an error dict (not
`None`) when the send raises, so a send failure yields `True` — while the
same `except` handler has already marked the connection as dead.  The
conjuncts below record the divergence (first two) and the agreeing cases. -/

/-- C8: at the failing input (connected client whose probe send raises),
`is_connection_alive` returns `True` even though no reply at all was
received — and it does so while `send_command`'s handler has just set
`is_connected = False`.  The remaining conjuncts show the claim's behaviour
on actual replies: non-empty reply ⇒ true, empty/no reply ⇒ false, not
connected ⇒ false. -/
theorem c8_is_alive_send_failure_bug :
    (isConnectionAlive ⟨true, true⟩ .raiseOnSend).2 = true ∧
    (isConnectionAlive ⟨true, true⟩ .raiseOnSend).1.is_connected = false ∧
    (isConnectionAlive ⟨true, true⟩ (.ok "x")).2 = true ∧
    (isConnectionAlive ⟨true, true⟩ (.ok "")).2 = false ∧
    (isConnectionAlive ⟨true, true⟩ (.ok "  ")).2 = false ∧
    (isConnectionAlive ⟨false, true⟩ (.ok "x")).2 = false := by
  decide

/-! ## Claim C10: `get_players` on disconnect / no reply -/

/-- C10: when the client is not connected, or when the `plys` command
elicits no reply, `get_players` returns the empty list rather than an error
value; and a successful poll of a roster with no players also returns the
empty list, so the two are indistinguishable at the return type. -/
theorem c10_get_players_empty_indistinguishable :
    (∀ (c : Conn) (env : CmdEnv), c.is_connected = false ∨ c.has_socket = false →
      (getPlayers c env).2 = .ok []) ∧
    (∀ (c : Conn) (data : String), pyStrip data = "" →
      (getPlayers c (.ok data)).2 = .ok []) ∧
    (pyStrip "Players connected:\nno player lines here" ≠ "" ∧
     (getPlayers ⟨true, true⟩ (.ok "Players connected:\nno player lines here")).2 = .ok []) := by
  refine ⟨?_, ?_, by decide, by rfl⟩
  · intro c env h
    have hc : (!c.is_connected || !c.has_socket) = true := by
      rcases h with h | h <;> simp [h]
    unfold getPlayers sendCommand
    rw [if_pos hc]
  · intro c data h
    by_cases hc : (!c.is_connected || !c.has_socket) = true
    · unfold getPlayers sendCommand
      rw [if_pos hc]
    · unfold getPlayers sendCommand
      rw [if_neg hc]
      simp only [h, ne_eq, not_true_eq_false, if_false, reduceIte]

/-- Witness for C10 at concrete inputs: a disconnected client and a
connected client receiving an empty reply both yield the empty roster. -/
theorem c10_get_players_empty_witness :
    (getPlayers ⟨false, true⟩ (.ok "x")).2 = .ok [] ∧
    (getPlayers ⟨true, true⟩ (.ok "")).2 = .ok [] :=
  ⟨c10_get_players_empty_indistinguishable.1 ⟨false, true⟩ (.ok "x") (Or.inl rfl),
   c10_get_players_empty_indistinguishable.2.1 ⟨true, true⟩ "" rfl⟩

/-! ## Claim C3: reconnect attempt accounting -/

lemma monitorTick_attempt_fail (s : SvcState) (env : TickEnv)
    (h : s.is_connected = false ∨ s.has_handler = false) (hc : env.connectOk = false) :
    monitorTick s env =
      (⟨false, false, s.reconnect_attempts + 1⟩, [.incrOnConnectFail]) := by
  have hcond : (!s.is_connected || !s.has_handler) = true := by
    rcases h with h | h <;> simp [h]
  unfold monitorTick
  rw [if_pos hcond]
  simp [attemptConnection, hc, handleConnectionError]

lemma monitorTick_conn_alive (s : SvcState) (env : TickEnv)
    (hc : s.is_connected = true) (hh : s.has_handler = true) (ha : env.alive = true) :
    monitorTick s env =
      (if env.pollOk then ({ s with reconnect_attempts := 0 }, [.resetAfterMonitor])
       else (⟨false, false, 0⟩, [.incrOnPollFail, .resetAfterMonitor])) := by
  cases hp : env.pollOk
  · simp [monitorTick, hc, hh, ha, monitorPlayers, hp, handleConnectionError]
  · simp [monitorTick, hc, hh, ha, monitorPlayers, hp]

lemma monitorTick_connect_success (s : SvcState) (env : TickEnv)
    (hc : env.connectOk = true) :
    (monitorTick s env).1.reconnect_attempts = 0 := by
  cases hic : s.is_connected <;> cases hih : s.has_handler <;>
    cases ha : env.alive <;> cases hp : env.pollOk <;>
    simp [monitorTick, attemptConnection, monitorPlayers, handleConnectionError,
      hic, hih, ha, hp, hc]

lemma runTicks_fail_from (k n : Nat) :
    runTicks ⟨false, false, k⟩ (List.replicate n ⟨false, true, true⟩) =
      (⟨false, false, k + n⟩, List.replicate n .incrOnConnectFail) := by
  induction n generalizing k with
  | zero => simp [runTicks]
  | succ n ih =>
    rw [List.replicate_succ]
    unfold runTicks
    rw [monitorTick_attempt_fail ⟨false, false, k⟩ ⟨false, true, true⟩ (Or.inl rfl) rfl]
    simp only [ih (k + 1)]
    have h1 : k + 1 + n = k + (n + 1) := by omega
    simp [h1, List.replicate_succ]

/-- C3 counterexample to the original claim: in a tick that begins connected
and whose liveness probe succeeds, a failed roster poll performs an
increment of `reconnect_attempts` (the `incrOnPollFail` mutation) even
though no connect/authenticate attempt occurs in the tick — refuting
"only increments on a failed connect/authenticate attempt".  (The tick then
unconditionally zeroes the counter.) -/
theorem c3_counterexample_poll_failure_increments :
    (monitorTick ⟨true, true, 0⟩ ⟨false, true, false⟩).2 =
      [.incrOnPollFail, .resetAfterMonitor] ∧
    CounterEvent.incrOnConnectFail ∉ (monitorTick ⟨true, true, 0⟩ ⟨false, true, false⟩).2 ∧
    (monitorTick ⟨true, true, 0⟩ ⟨false, true, false⟩).1.reconnect_attempts = 0 := by
  decide

/-- C3 (amended): `reconnect_attempts` reaches exactly N after N consecutive
failed connect attempts, and resets to 0 after a successful authenticated
round-trip (a successful poll tick, or a successful connect); it increments
on failed connect/authenticate attempts **and also on a failed roster poll
inside a connected tick**, though in the failed-poll case the monitor tick
then unconditionally resets it to 0 before the tick ends. -/
theorem c3_reconnect_attempts_accounting :
    (∀ n : Nat,
      (runTicks ⟨false, false, 0⟩ (List.replicate n ⟨false, true, true⟩)).1.reconnect_attempts
        = n) ∧
    (∀ (s : SvcState) (env : TickEnv), s.is_connected = true → s.has_handler = true →
      env.alive = true → env.pollOk = true →
      (monitorTick s env).1.reconnect_attempts = 0 ∧
      (monitorTick s env).2 = [.resetAfterMonitor]) ∧
    (∀ (s : SvcState) (env : TickEnv), env.connectOk = true →
      (monitorTick s env).1.reconnect_attempts = 0) ∧
    (∀ (s : SvcState) (env : TickEnv), s.is_connected = true → s.has_handler = true →
      env.alive = true → env.pollOk = false →
      (monitorTick s env).2 = [.incrOnPollFail, .resetAfterMonitor] ∧
      (monitorTick s env).1.reconnect_attempts = 0) := by
  refine ⟨?_, ?_, ?_, ?_⟩
  · intro n
    rw [runTicks_fail_from 0 n]
    simp
  · intro s env hc hh ha hp
    rw [monitorTick_conn_alive s env hc hh ha, if_pos hp]
    exact ⟨rfl, rfl⟩
  · exact fun s env hc => monitorTick_connect_success s env hc
  · intro s env hc hh ha hp
    rw [monitorTick_conn_alive s env hc hh ha, if_neg (by simp [hp])]
    exact ⟨rfl, rfl⟩

/-- Witness for C3 (amended) at concrete inputs: two failed connect ticks
leave the counter at 2, and a successful poll tick resets it to 0. -/
theorem c3_reconnect_attempts_accounting_witness :
    (runTicks ⟨false, false, 0⟩
        (List.replicate 2 ⟨false, true, true⟩)).1.reconnect_attempts = 2 ∧
    (monitorTick ⟨true, true, 5⟩ ⟨false, true, true⟩).1.reconnect_attempts = 0 :=
  ⟨c3_reconnect_attempts_accounting.1 2,
   (c3_reconnect_attempts_accounting.2.1 ⟨true, true, 5⟩ ⟨false, true, true⟩
      rfl rfl rfl rfl).1⟩

/-! ## Claims C4 and C7: authentication strategy order and verification -/

/-- Strategy `i` is *accepted* when its success predicate holds and the
subsequent verification `send_command` does not raise (a raised verification
send produces the error dict, whose `.lower()` call raises and makes the
loop continue). -/
def acceptedAt (env : AuthEnv) (i : Nat) : Bool :=
  authMethodOk env i && !(decide (env.verify i = .raiseOnSend))

/-- Index of the first accepted strategy, if any. -/
def firstAccepted (env : AuthEnv) : Option Nat :=
  if acceptedAt env 0 then some 0
  else if acceptedAt env 1 then some 1
  else if acceptedAt env 2 then some 2
  else if acceptedAt env 3 then some 3
  else none

lemma acceptedAt_false_cases (env : AuthEnv) (i : Nat) (h : acceptedAt env i = false) :
    authMethodOk env i = false ∨ env.verify i = .raiseOnSend := by
  rcases Bool.and_eq_false_iff.mp h with h1 | h1
  · exact Or.inl h1
  · right
    simpa using h1

lemma connectStep_succ_notaccepted (env : AuthEnv) (fuel i : Nat) (tried : List String)
    (h : acceptedAt env i = false) :
    connectStep env (fuel + 1) i ⟨false, true⟩ tried =
      connectStep env fuel (i + 1) ⟨false, true⟩ (tried ++ [authMethodNames.getD i ""]) := by
  rcases acceptedAt_false_cases env i h with h1 | h1
  · conv_lhs => unfold connectStep
    rw [if_neg (by simp [h1])]
  · by_cases h2 : authMethodOk env i = true
    · conv_lhs => unfold connectStep
      rw [if_pos h2, h1]
      rfl
    · simp at h2
      conv_lhs => unfold connectStep
      rw [if_neg (by simp [h2])]

lemma connectStep_zero_notaccepted (env : AuthEnv) (i : Nat) (tried : List String)
    (h : acceptedAt env i = false) :
    connectStep env 0 i ⟨false, true⟩ tried =
      ⟨false, ⟨false, false⟩, tried ++ [authMethodNames.getD i ""]⟩ := by
  rcases acceptedAt_false_cases env i h with h1 | h1
  · conv_lhs => unfold connectStep
    rw [if_neg (by simp [h1])]
  · by_cases h2 : authMethodOk env i = true
    · conv_lhs => unfold connectStep
      rw [if_pos h2, h1]
      rfl
    · simp at h2
      conv_lhs => unfold connectStep
      rw [if_neg (by simp [h2])]

lemma connectStep_accepted (env : AuthEnv) (fuel i : Nat) (tried : List String)
    (h : acceptedAt env i = true) :
    connectStep env fuel i ⟨false, true⟩ tried =
      ⟨true, ⟨true, true⟩, tried ++ [authMethodNames.getD i ""]⟩ := by
  have hok : authMethodOk env i = true := (Bool.and_eq_true_iff.mp h).1
  have hnr : env.verify i ≠ .raiseOnSend := by
    have h2 := (Bool.and_eq_true_iff.mp h).2
    simpa using h2
  obtain ⟨d, hd⟩ : ∃ d, env.verify i = .ok d := by
    cases hv : env.verify i with
    | ok d => exact ⟨d, rfl⟩
    | raiseOnSend => exact absurd hv hnr
  cases fuel with
  | zero =>
    conv_lhs => unfold connectStep
    rw [if_pos hok, hd]
    by_cases hs : pyStrip d = ""
    · rw [show sendCommand { (⟨false, true⟩ : Conn) with is_connected := true } (.ok d) =
          ((⟨true, true⟩ : Conn), CmdResult.noneVal) from by unfold sendCommand; simp [hs]]
    · rw [show sendCommand { (⟨false, true⟩ : Conn) with is_connected := true } (.ok d) =
          ((⟨true, true⟩ : Conn), CmdResult.val (pyStrip d)) from by
        unfold sendCommand; simp [hs]]
  | succ fuel =>
    conv_lhs => unfold connectStep
    rw [if_pos hok, hd]
    by_cases hs : pyStrip d = ""
    · rw [show sendCommand { (⟨false, true⟩ : Conn) with is_connected := true } (.ok d) =
          ((⟨true, true⟩ : Conn), CmdResult.noneVal) from by unfold sendCommand; simp [hs]]
    · rw [show sendCommand { (⟨false, true⟩ : Conn) with is_connected := true } (.ok d) =
          ((⟨true, true⟩ : Conn), CmdResult.val (pyStrip d)) from by
        unfold sendCommand; simp [hs]]

/-- Counterexample environment for C4: the first strategy's reply satisfies
its success predicate, but the verification send raises. -/
def envC4 : AuthEnv where
  standard := .resp "Logged in successfully"
  direct := .resp ""
  userpass := fun _ => .resp ""
  newline := .resp ""
  verify := fun _ => .raiseOnSend

/-- C4 counterexample to the original claim: in `envC4` the first strategy's
reply satisfies its success predicate, yet `connect` attempts every later
strategy and returns failure — because the post-auth verification
`send_command` raised, its error-dict return made `test_result.lower()`
raise, and the loop's `except` turned that into `continue`. -/
theorem c4_counterexample_verify_error :
    authMethodOk envC4 0 = true ∧
    (pyConnect envC4).success = false ∧
    (pyConnect envC4).attempted = authMethodNames ∧
    (pyConnect envC4).finalConn.is_connected = false := by
  decide

/-- C4 (amended): `connect` tries the four strategies in the fixed priority
order; the first strategy whose reply satisfies its success predicate *and*
whose post-auth verification command does not raise a transport error is
accepted, and no later strategy is attempted; a strategy whose verification
send raises is abandoned and the loop continues with the next strategy; if
no strategy is accepted, `connect` returns failure and the socket is closed
(connection not authenticated). -/
theorem c4_auth_strategy_order (env : AuthEnv) :
    (match firstAccepted env with
     | some i =>
       (pyConnect env).success = true ∧
       (pyConnect env).attempted = authMethodNames.take (i + 1) ∧
       (∀ j, j < i → acceptedAt env j = false)
     | none =>
       (pyConnect env).success = false ∧
       (pyConnect env).attempted = authMethodNames ∧
       (pyConnect env).finalConn.is_connected = false ∧
       (pyConnect env).finalConn.has_socket = false) := by
  unfold firstAccepted
  by_cases h0 : acceptedAt env 0 = true
  · rw [if_pos h0]
    unfold pyConnect
    rw [connectStep_accepted env 3 0 [] h0]
    exact ⟨rfl, by decide, fun j hj => absurd hj (by omega)⟩
  · simp only [Bool.not_eq_true] at h0
    rw [if_neg (by simp [h0])]
    have e0 := connectStep_succ_notaccepted env 2 0 [] h0
    by_cases h1 : acceptedAt env 1 = true
    · rw [if_pos h1]
      unfold pyConnect
      rw [e0, connectStep_accepted env 2 1 _ h1]
      refine ⟨rfl, by decide, ?_⟩
      intro j hj
      interval_cases j
      exact h0
    · simp only [Bool.not_eq_true] at h1
      rw [if_neg (by simp [h1])]
      have e1 := connectStep_succ_notaccepted env 1 1 ([] ++ [authMethodNames.getD 0 ""]) h1
      by_cases h2 : acceptedAt env 2 = true
      · rw [if_pos h2]
        unfold pyConnect
        rw [e0, e1, connectStep_accepted env 1 2 _ h2]
        refine ⟨rfl, by decide, ?_⟩
        intro j hj
        interval_cases j
        · exact h0
        · exact h1
      · simp only [Bool.not_eq_true] at h2
        rw [if_neg (by simp [h2])]
        have e2 := connectStep_succ_notaccepted env 0 2 ([] ++ [authMethodNames.getD 0 ""] ++ [authMethodNames.getD 1 ""]) h2
        by_cases h3 : acceptedAt env 3 = true
        · rw [if_pos h3]
          unfold pyConnect
          rw [e0, e1, e2, connectStep_accepted env 0 3 _ h3]
          refine ⟨rfl, by decide, ?_⟩
          intro j hj
          interval_cases j
          · exact h0
          · exact h1
          · exact h2
        · simp only [Bool.not_eq_true] at h3
          rw [if_neg (by simp [h3])]
          have e3 := connectStep_zero_notaccepted env 3 ([] ++ [authMethodNames.getD 0 ""] ++ [authMethodNames.getD 1 ""] ++ [authMethodNames.getD 2 ""]) h3
          unfold pyConnect
          rw [e0, e1, e2, e3]
          exact ⟨rfl, by decide, rfl, rfl⟩

/-- Witness environment for C4 (amended): the first strategy is accepted. -/
def envC4w : AuthEnv where
  standard := .resp "Logged in successfully"
  direct := .resp ""
  userpass := fun _ => .resp ""
  newline := .resp ""
  verify := fun _ => .ok ""

/-- Witness for C4 (amended) at the concrete environment `envC4w`. -/
theorem c4_auth_strategy_order_witness :
    (pyConnect envC4w).success = true ∧
    (pyConnect envC4w).attempted = authMethodNames.take (0 + 1) := by
  have h0 := c4_auth_strategy_order envC4w
  rw [show firstAccepted envC4w = some 0 from by decide] at h0
  exact ⟨h0.1, h0.2.1⟩

/-- C7: once the first successful strategy's verification command yields any
reply string (including one matching no expected pattern) or no reply at
all (`_receive_data` returned empty, so `send_command` returned `None`),
`connect` reports success: the verification reply is only logged and never
invalidates the authentication. -/
theorem c7_verification_advisory (env : AuthEnv) (i : Nat) (data : String)
    (hok : authMethodOk env i = true)
    (hfirst : ∀ j, j < i → authMethodOk env j = false)
    (hv : env.verify i = .ok data) :
    (pyConnect env).success = true := by
  have hacc : acceptedAt env i = true := by
    unfold acceptedAt
    rw [hok, hv]
    simp
  have hlt : i < 4 := by
    by_contra hge
    push_neg at hge
    obtain ⟨k, rfl⟩ : ∃ k, i = k + 4 := ⟨i - 4, by omega⟩
    exact absurd hok (by simp [authMethodOk])
  have notacc : ∀ j, j < i → acceptedAt env j = false := by
    intro j hj
    unfold acceptedAt
    rw [hfirst j hj]
    simp
  interval_cases i
  · unfold pyConnect
    rw [connectStep_accepted env 3 0 [] hacc]
  · unfold pyConnect
    rw [connectStep_succ_notaccepted env 2 0 [] (notacc 0 (by omega)),
      connectStep_accepted env 2 1 _ hacc]
  · unfold pyConnect
    rw [connectStep_succ_notaccepted env 2 0 [] (notacc 0 (by omega)),
      connectStep_succ_notaccepted env 1 1 _ (notacc 1 (by omega)),
      connectStep_accepted env 1 2 _ hacc]
  · unfold pyConnect
    rw [connectStep_succ_notaccepted env 2 0 [] (notacc 0 (by omega)),
      connectStep_succ_notaccepted env 1 1 _ (notacc 1 (by omega)),
      connectStep_succ_notaccepted env 0 2 _ (notacc 2 (by omega)),
      connectStep_accepted env 0 3 _ hacc]

/-- Witness environment for C7: standard auth succeeds, and the
verification reply matches none of the expected patterns. -/
def envC7 : AuthEnv where
  standard := .resp "Logged in successfully"
  direct := .resp ""
  userpass := fun _ => .resp ""
  newline := .resp ""
  verify := fun _ => .ok "unrelated verification text"

/-- Witness for C7: with a non-matching verification reply `connect` still
reports success. -/
theorem c7_verification_advisory_witness :
    (pyConnect envC7).success = true :=
  c7_verification_advisory envC7 0 "unrelated verification text"
    (by decide) (fun j hj => absurd hj (by omega)) rfl

/-! ## Claims C1, C5, C6: supporting lemmas about digits and the parsers -/

lemma pySpace_eq_false_of_pyDigit {c : Char} (h : pyDigit c = true) : pySpace c = false := by
  by_contra hs
  rw [Bool.not_eq_false] at hs
  simp only [pySpace, Bool.or_eq_true, decide_eq_true_eq] at hs
  rcases hs with ((((h1 | h1) | h1) | h1) | h1) | h1 <;> subst h1 <;>
    exact absurd h (by decide)

lemma dropWhile_pySpace_of_digits {cs : List Char} (h : cs.all pyDigit = true) :
    cs.dropWhile pySpace = cs := by
  cases cs with
  | nil => rfl
  | cons c cs =>
    have hc : pyDigit c = true := by
      rw [List.all_cons] at h
      exact (Bool.and_eq_true_iff.mp h).1
    simp [List.dropWhile, pySpace_eq_false_of_pyDigit hc]

lemma pyStripChars_of_digits {cs : List Char} (h : cs.all pyDigit = true) :
    pyStripChars cs = cs := by
  unfold pyStripChars
  rw [dropWhile_pySpace_of_digits h]
  rw [dropWhile_pySpace_of_digits (by rw [List.all_reverse]; exact h)]
  exact List.reverse_reverse cs

lemma digitPartRest_of_digits {cs : List Char} (h : cs.all pyDigit = true) :
    digitPartRest cs = true := by
  induction cs with
  | nil => rfl
  | cons c cs ih =>
    rw [List.all_cons] at h
    obtain ⟨hc, hcs⟩ := Bool.and_eq_true_iff.mp h
    have hne : c ≠ '_' := by
      intro he
      subst he
      exact absurd hc (by decide)
    unfold digitPartRest
    rw [if_neg hne, hc, ih hcs]
    rfl

lemma digitPartOk_of_digits {cs : List Char} (hne : cs ≠ []) (h : cs.all pyDigit = true) :
    digitPartOk cs = true := by
  cases cs with
  | nil => exact absurd rfl hne
  | cons c cs =>
    rw [List.all_cons] at h
    obtain ⟨hc, hcs⟩ := Bool.and_eq_true_iff.mp h
    show (pyDigit c && digitPartRest cs) = true
    rw [hc, digitPartRest_of_digits hcs]
    rfl

lemma pyIntOfChars_cons (c : Char) (rest : List Char) :
    pyIntOfChars (c :: rest) =
      if c = '+' then
        if digitPartOk rest then some (Int.ofNat (digitPartVal rest)) else none
      else if c = '-' then
        if digitPartOk rest then some (-(Int.ofNat (digitPartVal rest))) else none
      else
        if digitPartOk (c :: rest) then some (Int.ofNat (digitPartVal (c :: rest)))
        else none := rfl

lemma isPyDigitStr_ne_empty {s : String} (h : isPyDigitStr s = true) : s ≠ "" := by
  intro he
  subst he
  exact absurd h (by decide)

lemma pyIntOfString_of_digits {s : String} (h : isPyDigitStr s = true) :
    ∃ n : Nat, pyIntOfString s = some (Int.ofNat n) := by
  unfold isPyDigitStr at h
  obtain ⟨hne, hall⟩ := Bool.and_eq_true_iff.mp h
  cases hd : s.data with
  | nil => rw [hd] at hne; exact absurd hne (by decide)
  | cons c cs =>
    rw [hd] at hall
    have hc : pyDigit c = true := by
      rw [List.all_cons] at hall
      exact (Bool.and_eq_true_iff.mp hall).1
    have hplus : c ≠ '+' := by
      intro he; subst he; exact absurd hc (by decide)
    have hminus : c ≠ '-' := by
      intro he; subst he; exact absurd hc (by decide)
    unfold pyIntOfString
    rw [hd, pyStripChars_of_digits hall, pyIntOfChars_cons]
    rw [if_neg hplus, if_neg hminus,
      if_pos (digitPartOk_of_digits (by simp) hall)]
    exact ⟨_, rfl⟩

lemma lstripDash_of_digits {s : String} (h : isPyDigitStr s = true) :
    lstripDash s = s := by
  unfold isPyDigitStr at h
  obtain ⟨hne, hall⟩ := Bool.and_eq_true_iff.mp h
  unfold lstripDash
  cases hd : s.data with
  | nil => rw [hd] at hne; exact absurd hne (by decide)
  | cons c cs =>
    rw [hd] at hall
    have hc : pyDigit c = true := by
      rw [List.all_cons] at hall
      exact (Bool.and_eq_true_iff.mp hall).1
    have hdash : ¬ (c = '-') := by
      intro he; subst he; exact absurd hc (by decide)
    rw [List.dropWhile_cons_of_neg (by simpa using hdash)]
    cases s
    simp_all

/-- The `negativeIdVal` test: the id's Python integer value is negative. -/
def negativeIdVal (s : String) : Bool :=
  match pyIntOfString s with
  | some n => decide (n < 0)
  | none => false

lemma negSkip_of_digits {s : String} (h : isPyDigitStr s = true) :
    negSkip s = .ok false := by
  obtain ⟨n, hn⟩ := pyIntOfString_of_digits h
  unfold negSkip
  rw [lstripDash_of_digits h, if_pos h, hn]
  have : ¬ (Int.ofNat n < 0) := not_lt.mpr (Int.ofNat_nonneg n)
  simp [this]

lemma negativeIdVal_of_digits {s : String} (h : isPyDigitStr s = true) :
    negativeIdVal s = false := by
  obtain ⟨n, hn⟩ := pyIntOfString_of_digits h
  unfold negativeIdVal
  rw [hn]
  have : ¬ (Int.ofNat n < 0) := not_lt.mpr (Int.ofNat_nonneg n)
  simp [this]

/-! ### Parser output invariants -/

lemma takeDigitRun_spec {cs : List Char} {pr : List Char × List Char}
    (h : takeDigitRun cs = some pr) :
    pr.1 ≠ [] ∧ pr.1.all pyDigit = true := by
  unfold takeDigitRun at h
  by_cases he : (cs.takeWhile pyDigit).isEmpty = true
  · rw [if_pos he] at h
    exact absurd h (by simp)
  · rw [if_neg he] at h
    have h1 : pr.1 = cs.takeWhile pyDigit := by
      have := Option.some.injEq .. ▸ h
      rw [← this]
    constructor
    · rw [h1]
      intro hc
      rw [hc] at he
      exact he rfl
    · rw [h1]
      rw [List.all_eq_true]
      intro c hc
      exact List.mem_takeWhile_imp hc

lemma searchKeyDigits_spec {key cs ds : List Char} (h : searchKeyDigits key cs = some ds) :
    ds ≠ [] ∧ ds.all pyDigit = true := by
  induction cs with
  | nil => exact absurd h (by simp [searchKeyDigits])
  | cons c tl ih =>
    unfold searchKeyDigits at h
    by_cases hs : startsWithChars key (c :: tl) = true
    · rw [if_pos hs] at h
      by_cases he : (((c :: tl).drop key.length).takeWhile pyDigit).isEmpty = true
      · rw [if_pos he] at h
        exact ih h
      · rw [if_neg he] at h
        have hd := Option.some.injEq .. ▸ h
        constructor
        · rw [← hd]
          intro hc
          rw [hc] at he
          exact he rfl
        · rw [← hd]
          rw [List.all_eq_true]
          intro x hx
          exact List.mem_takeWhile_imp hx
    · rw [if_neg hs] at h
      exact ih h

lemma isPyDigitStr_mk {ds : List Char} (h1 : ds ≠ []) (h2 : ds.all pyDigit = true) :
    isPyDigitStr (String.mk ds) = true := by
  unfold isPyDigitStr
  have : (String.mk ds).data = ds := rfl
  rw [this, h2]
  cases ds with
  | nil => exact absurd rfl h1
  | cons c cs => rfl

/-- Shape invariant for records emitted under each section of the parsing
loop. -/
def sectionInv : PSection → Player → Prop
  | .connected, p =>
    p.status = "Online" ∧ p.total_playtime = none ∧ p.ping = 0 ∧
    isPyDigitStr p.steam_id = true
  | .online, p =>
    p.status = "Online" ∧ p.total_playtime = none ∧ p.playfield = "" ∧
    p.ip_address = "" ∧ p.ping = 0 ∧ isPyDigitStr p.steam_id = true
  | .globalList, p =>
    p.status = "Offline" ∧ (∃ n, p.total_playtime = some n) ∧ p.playfield = "" ∧
    p.ip_address = "" ∧ p.ping = 0 ∧ isPyDigitStr p.steam_id = true

lemma connMatch_sid_digits {cs : List Char} {sid nm pf ip : String}
    (h : connMatch cs = some (sid, nm, pf, ip)) : isPyDigitStr sid = true := by
  simp only [connMatch, Option.bind_eq_some, Option.map_eq_some'] at h
  obtain ⟨pr1, h1, cs2, h2, pr2, h3, cs4, h4, nmr, h5, pfr, h6, ip', h7, heq⟩ := h
  obtain ⟨hd1, hd2⟩ := takeDigitRun_spec h3
  have hsid : sid = String.mk pr2.1 := by
    have := Prod.mk.injEq .. ▸ heq
    exact this.1.symm
  rw [hsid]
  exact isPyDigitStr_mk hd1 hd2

lemma parseConnectedLine_inv {l : String} {p : Player}
    (h : parseConnectedLine l = some p) : sectionInv .connected p := by
  unfold parseConnectedLine at h
  by_cases hg : (containsSub l "C-Id:" || containsSub l "---" || pyStrip l = "") = true
  · rw [if_pos hg] at h
    exact absurd h (by simp)
  · rw [if_neg hg] at h
    cases hm : connMatch l.data with
    | none => rw [hm] at h; exact absurd h (by simp)
    | some quad =>
      obtain ⟨sid, nm, pf, ip⟩ := quad
      rw [hm] at h
      have hp := Option.some.injEq .. ▸ h
      rw [← hp]
      exact ⟨rfl, rfl, rfl, connMatch_sid_digits hm⟩

lemma parseOnlineLine_inv {l : String} {p : Player}
    (h : parseOnlineLine l = some p) : sectionInv .online p := by
  unfold parseOnlineLine at h
  cases hm : searchKeyDigits ['i', 'd', '='] l.data with
  | none => rw [hm] at h; exact absurd h (by simp)
  | some sid =>
    rw [hm] at h
    have hp := Option.some.injEq .. ▸ h
    rw [← hp]
    obtain ⟨hd1, hd2⟩ := searchKeyDigits_spec hm
    exact ⟨rfl, rfl, rfl, rfl, rfl, isPyDigitStr_mk hd1 hd2⟩

lemma parseGlobalLine_inv {l : String} {p : Player}
    (h : parseGlobalLine l = some p) : sectionInv .globalList p := by
  unfold parseGlobalLine at h
  cases hm : searchKeyDigits ['i', 'd', '='] l.data with
  | none => rw [hm] at h; exact absurd h (by simp)
  | some sid =>
    rw [hm] at h
    have hp := Option.some.injEq .. ▸ h
    rw [← hp]
    obtain ⟨hd1, hd2⟩ := searchKeyDigits_spec hm
    exact ⟨rfl, ⟨_, rfl⟩, rfl, rfl, rfl, isPyDigitStr_mk hd1 hd2⟩

lemma parseSectionLine_inv {sec : PSection} {l : String} {p : Player}
    (h : parseSectionLine sec l = some p) : sectionInv sec p := by
  cases sec with
  | connected => exact parseConnectedLine_inv h
  | online => exact parseOnlineLine_inv h
  | globalList => exact parseGlobalLine_inv h

lemma parsePlysLines_inv {ls : List String} :
    ∀ {cur : Option PSection} {sec : PSection} {p : Player},
      (sec, p) ∈ parsePlysLines cur ls → sectionInv sec p := by
  induction ls with
  | nil => intro cur sec p h; exact absurd h (by simp [parsePlysLines])
  | cons l ls ih =>
    intro cur sec p h
    unfold parsePlysLines at h
    split at h
    · exact ih h
    · split at h
      · exact ih h
      · split at h
        · exact ih h
        · split at h
          · exact ih h
          · split at h
            · exact ih h
            · split at h
              · exact ih h
              · split at h
                · rcases List.mem_cons.mp h with he | ht
                  · obtain ⟨h1, h2⟩ := Prod.mk.injEq .. ▸ he
                    subst h1
                    subst h2
                    exact parseSectionLine_inv (by assumption)
                  · exact ih ht
                · exact ih h

lemma parsePlys_inv {resp : String} {sec : PSection} {p : Player}
    (h : (sec, p) ∈ parsePlys resp) : sectionInv sec p :=
  parsePlysLines_inv h

lemma sectionInv_sid_digits {sec : PSection} {p : Player} (h : sectionInv sec p) :
    isPyDigitStr p.steam_id = true := by
  cases sec with
  | connected => exact h.2.2.2
  | online => exact h.2.2.2.2.2
  | globalList => exact h.2.2.2.2.2

/-! ### Merge-pass specifications -/

lemma containsStr_iff_mem {l : List String} {a : String} : l.contains a = true ↔ a ∈ l := by
  rw [List.contains_iff_exists_mem_beq]
  simp

/-- Keys of the insertion-ordered dict. -/
def keysOf (d : List (String × Player)) : List String := d.map Prod.fst

/-- The `connected_steam_ids` set, as the list of qualifying ids. -/
def connIdsSpec (ps : List Player) : List String :=
  (ps.filter (fun p => p.ip_address ≠ "" || p.playfield ≠ "")).map Player.steam_id

/-- The `online_steam_ids` set, as the list of qualifying ids. -/
def onlIdsSpec (ps : List Player) : List String :=
  (ps.filter (fun p => p.status = "Online" && tpFalsy p)).map Player.steam_id

lemma firstPass_of_digits {ps : List Player}
    (h : ∀ p ∈ ps, isPyDigitStr p.steam_id = true) :
    firstPass ps = .ok (connIdsSpec ps, onlIdsSpec ps) := by
  induction ps with
  | nil => rfl
  | cons p ps ih =>
    have hd := h p (by simp)
    have hne : ¬ (p.steam_id = "") := isPyDigitStr_ne_empty hd
    have ihh := ih (fun q hq => h q (by simp [hq]))
    unfold firstPass
    rw [if_neg hne, negSkip_of_digits hd, ihh]
    simp only [connIdsSpec, onlIdsSpec, List.filter_cons]
    by_cases h1 : (p.ip_address ≠ "" || p.playfield ≠ "") = true <;>
      by_cases h2 : (p.status = "Online" && tpFalsy p) = true <;>
        simp [h1, h2, apply_ite (List.map Player.steam_id)]

lemma connIdsSpec_mem {ps : List Player} {k : String} :
    k ∈ connIdsSpec ps ↔ ∃ p ∈ ps, p.steam_id = k ∧
      (p.ip_address ≠ "" ∨ p.playfield ≠ "") := by
  unfold connIdsSpec
  rw [List.mem_map]
  constructor
  · rintro ⟨p, hp, hk⟩
    rw [List.mem_filter] at hp
    refine ⟨p, hp.1, hk, ?_⟩
    have := hp.2
    simp only [Bool.or_eq_true, decide_eq_true_eq] at this
    exact this
  · rintro ⟨p, hp, hk, hor⟩
    refine ⟨p, ?_, hk⟩
    rw [List.mem_filter]
    exact ⟨hp, by simp only [Bool.or_eq_true, decide_eq_true_eq]; exact hor⟩

lemma onlIdsSpec_mem {ps : List Player} {k : String} :
    k ∈ onlIdsSpec ps ↔ ∃ p ∈ ps, p.steam_id = k ∧
      p.status = "Online" ∧ tpFalsy p = true := by
  unfold onlIdsSpec
  rw [List.mem_map]
  constructor
  · rintro ⟨p, hp, hk⟩
    rw [List.mem_filter] at hp
    have := hp.2
    simp only [Bool.and_eq_true, decide_eq_true_eq] at this
    exact ⟨p, hp.1, hk, this⟩
  · rintro ⟨p, hp, hk, hst, htp⟩
    refine ⟨p, ?_, hk⟩
    rw [List.mem_filter]
    exact ⟨hp, by simp only [Bool.and_eq_true, decide_eq_true_eq]; exact ⟨hst, htp⟩⟩

lemma alGet_eq_some {d : List (String × Player)} {k : String} {v : Player}
    (h : alGet d k = some v) : (k, v) ∈ d := by
  unfold alGet at h
  cases hf : d.find? (fun kv => kv.1 = k) with
  | none => rw [hf] at h; exact absurd h (by simp)
  | some kv =>
    rw [hf] at h
    have h1 : kv.2 = v := by simpa using h
    have h2 : kv.1 = k := by simpa using List.find?_some hf
    have h3 : kv ∈ d := List.mem_of_find?_eq_some hf
    rw [← h1, ← h2]
    exact h3

lemma alGet_eq_none {d : List (String × Player)} {k : String}
    (h : alGet d k = none) : ∀ kv ∈ d, kv.1 ≠ k := by
  intro kv hkv
  unfold alGet at h
  cases hf : d.find? (fun kv => kv.1 = k) with
  | none => simpa using List.find?_eq_none.mp hf kv hkv
  | some kv' => rw [hf] at h; exact absurd h (by simp)

lemma keysOf_alSet (d : List (String × Player)) (k : String) (v : Player) :
    keysOf (alSet d k v) = keysOf d := by
  unfold keysOf alSet
  rw [List.map_map]
  apply List.map_congr_left
  intro kv _
  by_cases hk : kv.1 = k
  · simp [hk]
  · simp [hk]

lemma alSet_mem {d : List (String × Player)} {k : String} {v : Player} {kv : String × Player}
    (h : kv ∈ alSet d k v) : kv ∈ d ∨ kv = (k, v) := by
  unfold alSet at h
  obtain ⟨kv0, hkv0, heq⟩ := List.mem_map.mp h
  by_cases hk : kv0.1 = k
  · right
    rw [← heq]
    simp [hk]
  · left
    rw [← heq]
    simp only [if_neg hk]
    exact hkv0

lemma mergeInto_steam_id {ex p : Player} (h : ex.steam_id ≠ "") :
    (mergeInto ex p).steam_id = ex.steam_id := by
  show (if p.steam_id ≠ "" && ex.steam_id = "" then p.steam_id else ex.steam_id)
    = ex.steam_id
  rw [if_neg (by simp [h])]

lemma secondPassGo_spec :
    ∀ (ps : List Player) (acc : List (String × Player)),
      (∀ p ∈ ps, isPyDigitStr p.steam_id = true) →
      (∀ kv ∈ acc, kv.2.steam_id = kv.1 ∧ kv.1 ≠ "") →
      ∃ d, secondPassGo acc ps = .ok d ∧
        (∀ k, k ∈ keysOf d ↔ (k ∈ keysOf acc ∨ ∃ p ∈ ps, p.steam_id = k)) ∧
        ((keysOf acc).Nodup → (keysOf d).Nodup) ∧
        (∀ kv ∈ d, kv.2.steam_id = kv.1 ∧ kv.1 ≠ "") := by
  intro ps
  induction ps with
  | nil =>
    intro acc _ hacc
    exact ⟨acc, rfl, by simp, id, hacc⟩
  | cons p ps ih =>
    intro acc hps hacc
    have hd := hps p (by simp)
    have hne : ¬ (p.steam_id = "") := isPyDigitStr_ne_empty hd
    have hps' : ∀ q ∈ ps, isPyDigitStr q.steam_id = true := fun q hq => hps q (by simp [hq])
    cases hg : alGet acc p.steam_id with
    | some ex =>
      have hmem : (p.steam_id, ex) ∈ acc := alGet_eq_some hg
      have hexinv := hacc _ hmem
      have hacc' : ∀ kv ∈ alSet acc p.steam_id (mergeInto ex p),
          kv.2.steam_id = kv.1 ∧ kv.1 ≠ "" := by
        intro kv hkv
        rcases alSet_mem hkv with h1 | h1
        · exact hacc kv h1
        · rw [h1]
          constructor
          · show (mergeInto ex p).steam_id = p.steam_id
            rw [mergeInto_steam_id (by rw [hexinv.1]; exact hexinv.2)]
            exact hexinv.1
          · exact hne
      obtain ⟨d, hd1, hd2, hd3, hd4⟩ := ih (alSet acc p.steam_id (mergeInto ex p)) hps' hacc'
      refine ⟨d, ?_, ?_, ?_, hd4⟩
      · unfold secondPassGo
        rw [if_neg hne, negSkip_of_digits hd, hg]
        exact hd1
      · intro k
        rw [hd2 k, keysOf_alSet]
        have hkacc : p.steam_id ∈ keysOf acc := by
          unfold keysOf
          exact List.mem_map.mpr ⟨(p.steam_id, ex), hmem, rfl⟩
        constructor
        · rintro (h1 | ⟨q, hq, hqk⟩)
          · exact Or.inl h1
          · exact Or.inr ⟨q, List.mem_cons_of_mem p hq, hqk⟩
        · rintro (h1 | ⟨q, hq, hqk⟩)
          · exact Or.inl h1
          · rcases List.mem_cons.mp hq with he | ht
            · subst he
              left
              rw [← hqk]
              exact hkacc
            · exact Or.inr ⟨q, ht, hqk⟩
      · intro hnd
        exact hd3 (by rw [keysOf_alSet]; exact hnd)
    | none =>
      have hnotin : p.steam_id ∉ keysOf acc := by
        intro hk
        obtain ⟨kv, hkv, hkk⟩ := List.mem_map.mp hk
        exact alGet_eq_none hg kv hkv hkk
      have hacc' : ∀ kv ∈ acc ++ [(p.steam_id, p)],
          kv.2.steam_id = kv.1 ∧ kv.1 ≠ "" := by
        intro kv hkv
        rcases List.mem_append.mp hkv with h1 | h1
        · exact hacc kv h1
        · have : kv = (p.steam_id, p) := by simpa using h1
          rw [this]
          exact ⟨rfl, hne⟩
      obtain ⟨d, hd1, hd2, hd3, hd4⟩ := ih (acc ++ [(p.steam_id, p)]) hps' hacc'
      refine ⟨d, ?_, ?_, ?_, hd4⟩
      · unfold secondPassGo
        rw [if_neg hne, negSkip_of_digits hd, hg]
        exact hd1
      · intro k
        rw [hd2 k]
        have hkeys : keysOf (acc ++ [(p.steam_id, p)]) = keysOf acc ++ [p.steam_id] := by
          simp [keysOf]
        rw [hkeys]
        constructor
        · rintro (h1 | ⟨q, hq, hqk⟩)
          · rcases List.mem_append.mp h1 with h2 | h2
            · exact Or.inl h2
            · have h3 : k = p.steam_id := by simpa using h2
              exact Or.inr ⟨p, List.mem_cons_self p ps, h3.symm⟩
          · exact Or.inr ⟨q, List.mem_cons_of_mem p hq, hqk⟩
        · rintro (h1 | ⟨q, hq, hqk⟩)
          · exact Or.inl (List.mem_append.mpr (Or.inl h1))
          · rcases List.mem_cons.mp hq with he | ht
            · subst he
              exact Or.inl (List.mem_append.mpr (Or.inr (by simp [hqk])))
            · exact Or.inr ⟨q, ht, hqk⟩
      · intro hnd
        apply hd3
        rw [show keysOf (acc ++ [(p.steam_id, p)]) = keysOf acc ++ [p.steam_id] by
          simp [keysOf]]
        rw [List.nodup_append]
        exact ⟨hnd, List.nodup_singleton _, by simpa using hnotin⟩

lemma keysOf_thirdPass (conn onl : List String) (d : List (String × Player)) :
    keysOf (thirdPass conn onl d) = keysOf d := by
  unfold keysOf thirdPass
  rw [List.map_map]
  rfl

lemma thirdPass_mem {conn onl : List String} {d : List (String × Player)}
    {kv : String × Player} (h : kv ∈ thirdPass conn onl d) :
    ∃ kv0 ∈ d, kv = (kv0.1, { kv0.2 with status := statusOf conn onl kv0.1 }) := by
  obtain ⟨kv0, hkv0, heq⟩ := List.mem_map.mp h
  exact ⟨kv0, hkv0, heq.symm⟩

lemma thirdPass_mem_of {conn onl : List String} {d : List (String × Player)}
    {kv0 : String × Player} (h : kv0 ∈ d) :
    (kv0.1, { kv0.2 with status := statusOf conn onl kv0.1 }) ∈ thirdPass conn onl d :=
  List.mem_map.mpr ⟨kv0, h, rfl⟩

/-! ### Section membership and the final status -/

/-- Id `sid` was parsed in section `sec` of the response. -/
def sectionHasId (resp : String) (sec : PSection) (sid : String) : Bool :=
  (parsePlys resp).any (fun sp => sp.1 = sec && sp.2.steam_id = sid)

lemma sectionHasId_iff {resp : String} {sec : PSection} {sid : String} :
    sectionHasId resp sec sid = true ↔
      ∃ p, (sec, p) ∈ parsePlys resp ∧ p.steam_id = sid := by
  unfold sectionHasId
  rw [List.any_eq_true]
  constructor
  · rintro ⟨sp, hsp, hpred⟩
    simp only [Bool.and_eq_true, decide_eq_true_eq] at hpred
    refine ⟨sp.2, ?_, hpred.2⟩
    rw [← hpred.1]
    exact hsp
  · rintro ⟨p, hp, hps⟩
    exact ⟨(sec, p), hp, by simp [hps]⟩

lemma parsedPlayers_digits {resp : String} :
    ∀ p ∈ parsedPlayers resp, isPyDigitStr p.steam_id = true := by
  intro p hp
  obtain ⟨⟨sec, p'⟩, hmem, hsnd⟩ := List.mem_map.mp hp
  cases hsnd
  exact sectionInv_sid_digits (parsePlys_inv hmem)

lemma conn_sub_section {resp : String} {k : String}
    (h : k ∈ connIdsSpec (parsedPlayers resp)) :
    sectionHasId resp .connected k = true := by
  rw [connIdsSpec_mem] at h
  obtain ⟨p, hp, hk, hor⟩ := h
  obtain ⟨⟨sec, p'⟩, hmem, hsnd⟩ := List.mem_map.mp hp
  cases hsnd
  have hinv := parsePlys_inv hmem
  cases sec with
  | connected => exact sectionHasId_iff.mpr ⟨p', hmem, hk⟩
  | online =>
    exact absurd hor (by rw [hinv.2.2.2.1, hinv.2.2.1]; simp)
  | globalList =>
    exact absurd hor (by rw [hinv.2.2.2.1, hinv.2.2.1]; simp)

lemma section_conn_sub_onl {resp : String} {k : String}
    (h : sectionHasId resp .connected k = true) :
    k ∈ onlIdsSpec (parsedPlayers resp) := by
  obtain ⟨p, hmem, hk⟩ := sectionHasId_iff.mp h
  have hinv := parsePlys_inv hmem
  rw [onlIdsSpec_mem]
  refine ⟨p, List.mem_map.mpr ⟨(.connected, p), hmem, rfl⟩, hk, hinv.1, ?_⟩
  unfold tpFalsy
  rw [hinv.2.1]
  rfl

lemma section_onl_sub_onl {resp : String} {k : String}
    (h : sectionHasId resp .online k = true) :
    k ∈ onlIdsSpec (parsedPlayers resp) := by
  obtain ⟨p, hmem, hk⟩ := sectionHasId_iff.mp h
  have hinv := parsePlys_inv hmem
  rw [onlIdsSpec_mem]
  refine ⟨p, List.mem_map.mpr ⟨(.online, p), hmem, rfl⟩, hk, hinv.1, ?_⟩
  unfold tpFalsy
  rw [hinv.2.1]
  rfl

lemma onl_sub_sections {resp : String} {k : String}
    (h : k ∈ onlIdsSpec (parsedPlayers resp)) :
    sectionHasId resp .connected k = true ∨ sectionHasId resp .online k = true := by
  rw [onlIdsSpec_mem] at h
  obtain ⟨p, hp, hk, hst, _⟩ := h
  obtain ⟨⟨sec, p'⟩, hmem, hsnd⟩ := List.mem_map.mp hp
  cases hsnd
  have hinv := parsePlys_inv hmem
  cases sec with
  | connected => exact Or.inl (sectionHasId_iff.mpr ⟨p', hmem, hk⟩)
  | online => exact Or.inr (sectionHasId_iff.mpr ⟨p', hmem, hk⟩)
  | globalList =>
    rw [hinv.1] at hst
    exact absurd hst (by decide)

lemma statusOf_online_of_conn {resp : String} {k : String}
    (h : sectionHasId resp .connected k = true) :
    statusOf (connIdsSpec (parsedPlayers resp)) (onlIdsSpec (parsedPlayers resp)) k
      = "Online" := by
  have honl := section_conn_sub_onl h
  unfold statusOf
  by_cases hc : (connIdsSpec (parsedPlayers resp)).contains k = true
  · rw [if_pos hc]
  · rw [if_neg hc, if_pos (containsStr_iff_mem.mpr honl)]

lemma statusOf_online_of_onl {resp : String} {k : String}
    (h : sectionHasId resp .online k = true) :
    statusOf (connIdsSpec (parsedPlayers resp)) (onlIdsSpec (parsedPlayers resp)) k
      = "Online" := by
  have honl := section_onl_sub_onl h
  unfold statusOf
  by_cases hc : (connIdsSpec (parsedPlayers resp)).contains k = true
  · rw [if_pos hc]
  · rw [if_neg hc, if_pos (containsStr_iff_mem.mpr honl)]

lemma statusOf_offline_of_neither {resp : String} {k : String}
    (h1 : sectionHasId resp .connected k = false)
    (h2 : sectionHasId resp .online k = false) :
    statusOf (connIdsSpec (parsedPlayers resp)) (onlIdsSpec (parsedPlayers resp)) k
      = "Offline" := by
  have hc : ¬ ((connIdsSpec (parsedPlayers resp)).contains k = true) := by
    intro hcc
    have := conn_sub_section (containsStr_iff_mem.mp hcc)
    rw [h1] at this
    exact absurd this (by decide)
  have ho : ¬ ((onlIdsSpec (parsedPlayers resp)).contains k = true) := by
    intro hoo
    rcases onl_sub_sections (containsStr_iff_mem.mp hoo) with hx | hx
    · rw [h1] at hx; exact absurd hx (by decide)
    · rw [h2] at hx; exact absurd hx (by decide)
  unfold statusOf
  rw [if_neg hc, if_neg ho]

lemma statusOf_cases (conn onl : List String) (k : String) :
    statusOf conn onl k = "Online" ∨ statusOf conn onl k = "Offline" := by
  unfold statusOf
  split_ifs <;> simp

/-! ### The sort order -/

lemma lexLeChars_total : ∀ as bs : List Char,
    lexLeChars as bs = true ∨ lexLeChars bs as = true := by
  intro as
  induction as with
  | nil => intro bs; exact Or.inl rfl
  | cons a as ih =>
    intro bs
    cases bs with
    | nil => exact Or.inr rfl
    | cons b bs =>
      by_cases hab : a = b
      · subst hab
        rcases ih bs with h | h
        · left; simpa [lexLeChars] using h
        · right; simpa [lexLeChars] using h
      · rcases lt_or_gt_of_ne hab with h | h
        · left; simp [lexLeChars, hab, h]
        · right; simp [lexLeChars, Ne.symm hab, h]

lemma lexLeChars_trans : ∀ as bs cs : List Char,
    lexLeChars as bs = true → lexLeChars bs cs = true → lexLeChars as cs = true := by
  intro as
  induction as with
  | nil => intro bs cs _ _; rfl
  | cons a as ih =>
    intro bs cs h1 h2
    cases bs with
    | nil => exact absurd h1 (by simp [lexLeChars])
    | cons b bs =>
      cases cs with
      | nil => exact absurd h2 (by simp [lexLeChars])
      | cons c cs =>
        simp only [lexLeChars] at h1 h2 ⊢
        by_cases hab : a = b
        · subst hab
          rw [if_pos rfl] at h1
          by_cases hac : a = c
          · rw [if_pos hac] at h2 ⊢
            exact ih bs cs h1 h2
          · rw [if_neg hac] at h2 ⊢
            exact h2
        · rw [if_neg hab] at h1
          have hab' : a < b := of_decide_eq_true h1
          by_cases hbc : b = c
          · subst hbc
            rw [if_neg hab]
            exact h1
          · rw [if_neg hbc] at h2
            have hbc' : b < c := of_decide_eq_true h2
            have hac : a < c := lt_trans hab' hbc'
            rw [if_neg (ne_of_lt hac)]
            exact decide_eq_true hac

lemma sortLe_total (p q : Player) : sortLe p q = true ∨ sortLe q p = true := by
  unfold sortLe
  by_cases h : (decide (p.status ≠ "Online")) = (decide (q.status ≠ "Online"))
  · rw [if_pos h, if_pos h.symm]
    exact lexLeChars_total _ _
  · rw [if_neg h, if_neg (Ne.symm h)]
    rcases Bool.eq_false_or_eq_true (decide (q.status ≠ "Online")) with hq | hq
    · exact Or.inl hq
    · right
      rcases Bool.eq_false_or_eq_true (decide (p.status ≠ "Online")) with hp | hp
      · exact hp
      · exact absurd (hp.trans hq.symm) h

lemma sortLe_trans (p q r : Player) (h1 : sortLe p q = true) (h2 : sortLe q r = true) :
    sortLe p r = true := by
  unfold sortLe at h1 h2 ⊢
  by_cases e1 : (decide (p.status ≠ "Online")) = (decide (q.status ≠ "Online"))
  · by_cases e2 : (decide (q.status ≠ "Online")) = (decide (r.status ≠ "Online"))
    · rw [if_pos e1] at h1
      rw [if_pos e2] at h2
      rw [if_pos (e1.trans e2)]
      exact lexLeChars_trans _ _ _ h1 h2
    · rw [if_neg e2] at h2
      rw [if_neg (by rw [e1]; exact e2)]
      exact h2
  · by_cases e2 : (decide (q.status ≠ "Online")) = (decide (r.status ≠ "Online"))
    · rw [if_neg e1] at h1
      rw [if_neg (by rw [← e2]; exact e1)]
      rw [← e2]
      exact h1
    · rw [if_neg e1] at h1
      rw [if_neg e2] at h2
      exact absurd (h1.trans h2.symm) e2

instance : IsTotal Player rosterLE :=
  ⟨fun a b => by
    unfold rosterLE
    rcases sortLe_total a b with h | h
    · exact Or.inl h
    · exact Or.inr h⟩

instance : IsTrans Player rosterLE :=
  ⟨fun a b c h1 h2 => sortLe_trans a b c h1 h2⟩

/-! ### The structure of a merged roster -/

lemma plysRoster_structure (resp : String) :
    ∃ d : List (String × Player),
      plysRoster resp = .ok (List.insertionSort rosterLE
        ((thirdPass (connIdsSpec (parsedPlayers resp)) (onlIdsSpec (parsedPlayers resp))
          d).map Prod.snd)) ∧
      (∀ k, k ∈ keysOf d ↔ ∃ p ∈ parsedPlayers resp, p.steam_id = k) ∧
      (keysOf d).Nodup ∧
      (∀ kv ∈ d, kv.2.steam_id = kv.1 ∧ kv.1 ≠ "") := by
  obtain ⟨d, hd1, hd2, hd3, hd4⟩ :=
    secondPassGo_spec (parsedPlayers resp) [] parsedPlayers_digits (by simp)
  have hd1' : secondPass (parsedPlayers resp) = .ok d := hd1
  refine ⟨d, ?_, ?_, hd3 (by simp [keysOf]), hd4⟩
  · unfold plysRoster mergePlayerData
    rw [firstPass_of_digits parsedPlayers_digits, hd1']
  · intro k
    rw [hd2 k]
    simp [keysOf]

lemma plysRoster_elem {resp : String} {roster : List Player}
    (h : plysRoster resp = .ok roster) :
    ∀ r ∈ roster,
      r.status = statusOf (connIdsSpec (parsedPlayers resp))
        (onlIdsSpec (parsedPlayers resp)) r.steam_id ∧
      ∃ p ∈ parsedPlayers resp, p.steam_id = r.steam_id := by
  obtain ⟨d, heq, hkeys, _, hval⟩ := plysRoster_structure resp
  rw [h] at heq
  simp only [Except.ok.injEq] at heq
  subst heq
  intro r hr
  rw [List.mem_insertionSort] at hr
  obtain ⟨kv, hkv, hsnd⟩ := List.mem_map.mp hr
  obtain ⟨kv0, hkv0, hkveq⟩ := thirdPass_mem hkv
  have hv := hval kv0 hkv0
  have hrid : r.steam_id = kv0.1 := by
    rw [← hsnd, hkveq]
    exact hv.1
  constructor
  · have h1 : r.status = statusOf (connIdsSpec (parsedPlayers resp))
        (onlIdsSpec (parsedPlayers resp)) kv0.1 := by
      rw [← hsnd, hkveq]
    rw [h1, hrid]
  · have hk : kv0.1 ∈ keysOf d := List.mem_map.mpr ⟨kv0, hkv0, rfl⟩
    obtain ⟨p, hp, hpk⟩ := (hkeys kv0.1).mp hk
    exact ⟨p, hp, by rw [hpk, hrid]⟩

lemma plysRoster_has_id {resp : String} {roster : List Player}
    (h : plysRoster resp = .ok roster) {k : String}
    (hk : ∃ p ∈ parsedPlayers resp, p.steam_id = k) :
    ∃ r ∈ roster, r.steam_id = k ∧
      r.status = statusOf (connIdsSpec (parsedPlayers resp))
        (onlIdsSpec (parsedPlayers resp)) k := by
  obtain ⟨d, heq, hkeys, _, hval⟩ := plysRoster_structure resp
  rw [h] at heq
  simp only [Except.ok.injEq] at heq
  subst heq
  obtain ⟨kv0, hkv0, hfst⟩ := List.mem_map.mp ((hkeys k).mpr hk)
  refine ⟨_, (List.mem_insertionSort rosterLE).mpr (List.mem_map.mpr
    ⟨_, thirdPass_mem_of hkv0, rfl⟩), ?_, ?_⟩
  · show kv0.2.steam_id = k
    rw [(hval kv0 hkv0).1, hfst]
  · show statusOf (connIdsSpec (parsedPlayers resp)) (onlIdsSpec (parsedPlayers resp)) kv0.1
      = statusOf (connIdsSpec (parsedPlayers resp)) (onlIdsSpec (parsedPlayers resp)) k
    rw [hfst]

lemma sortLe_cases {a b : Player} (hab : sortLe a b = true)
    (ha : a.status = "Online" ∨ a.status = "Offline")
    (hb : b.status = "Online" ∨ b.status = "Offline") :
    (a.status = "Online" ∧ b.status = "Offline") ∨
    (a.status = b.status ∧
      lexLeChars (pyLower a.name).data (pyLower b.name).data = true) := by
  unfold sortLe at hab
  rcases ha with ha | ha <;> rcases hb with hb | hb
  · right
    refine ⟨ha.trans hb.symm, ?_⟩
    rw [if_pos (by rw [ha, hb])] at hab
    exact hab
  · exact Or.inl ⟨ha, hb⟩
  · exfalso
    rw [if_neg (by rw [ha, hb]; decide), hb] at hab
    exact absurd hab (by decide)
  · right
    refine ⟨ha.trans hb.symm, ?_⟩
    rw [if_pos (by rw [ha, hb])] at hab
    exact hab

/-! ## Claim C1: status precedence in the merged roster -/

/-- C1: in every merged roster, an id that appeared in the "connected"
section is `Online`; otherwise an id that appeared in the "online" section
is `Online`; otherwise it is `Offline`.  In particular an id appearing in
both the "connected" and "global" sections ends up `Online`. -/
theorem c1_merged_status_precedence :
    ∀ (resp : String) (roster : List Player), plysRoster resp = .ok roster →
      (∀ r ∈ roster,
        (sectionHasId resp .connected r.steam_id = true → r.status = "Online") ∧
        (sectionHasId resp .connected r.steam_id = false →
          sectionHasId resp .online r.steam_id = true → r.status = "Online") ∧
        (sectionHasId resp .connected r.steam_id = false →
          sectionHasId resp .online r.steam_id = false → r.status = "Offline")) ∧
      (∀ sid, sectionHasId resp .connected sid = true →
        sectionHasId resp .globalList sid = true →
        ∃ r ∈ roster, r.steam_id = sid ∧ r.status = "Online") := by
  intro resp roster h
  constructor
  · intro r hr
    obtain ⟨hst, _⟩ := plysRoster_elem h r hr
    refine ⟨?_, ?_, ?_⟩
    · intro hc
      rw [hst]
      exact statusOf_online_of_conn hc
    · intro _ ho
      rw [hst]
      exact statusOf_online_of_onl ho
    · intro hc ho
      rw [hst]
      exact statusOf_offline_of_neither hc ho
  · intro sid hc _
    obtain ⟨p, hmem, hk⟩ := sectionHasId_iff.mp hc
    obtain ⟨r, hrrost, hrk, hrst⟩ := plysRoster_has_id h
      ⟨p, List.mem_map.mpr ⟨(.connected, p), hmem, rfl⟩, hk⟩
    exact ⟨r, hrrost, hrk, by rw [hrst]; exact statusOf_online_of_conn hc⟩

/-- A concrete `plys` response used by witnesses: one connected line and two
global lines, one of which shares the connected id. -/
def respW : String :=
  "Players connected:\n1: 100, Bob, Earth, 1.2.3.4|5678\nGlobal players list:\nid=100 name=Bob fac=[AB] role=Player online=55\nid=200 name=alice fac=[CD] role=Player online=0"

/-- The merged roster of `respW`. -/
def rosterW : List Player :=
  [⟨"100", "Bob", "Online", "Earth", "1.2.3.4", "AB", "Player", 0, some 55⟩,
   ⟨"200", "alice", "Offline", "", "", "CD", "Player", 0, some 0⟩]

/-- Witness for C1: id 100 appears in both "connected" and "global" and the
merged record is Online. -/
theorem c1_merged_status_precedence_witness :
    ∃ r ∈ rosterW, r.steam_id = "100" ∧ r.status = "Online" :=
  (c1_merged_status_precedence respW rosterW (by rfl)).2 "100" (by rfl) (by rfl)

/-! ## Claim C5: negative ids never reach the merged roster -/

lemma secondPassGo_noNeg :
    ∀ (ps : List Player) (acc d : List (String × Player)),
      secondPassGo acc ps = .ok d →
      (∀ kv ∈ acc, kv.2.steam_id = kv.1 ∧ kv.1 ≠ "" ∧ negSkip kv.1 = .ok false) →
      (∀ kv ∈ d, kv.2.steam_id = kv.1 ∧ kv.1 ≠ "" ∧ negSkip kv.1 = .ok false) := by
  intro ps
  induction ps with
  | nil =>
    intro acc d h hacc
    have h' : (Except.ok acc : Except Unit (List (String × Player))) = .ok d := h
    simp only [Except.ok.injEq] at h'
    subst h'
    exact hacc
  | cons p ps ih =>
    intro acc d h hacc
    unfold secondPassGo at h
    by_cases hsid : p.steam_id = ""
    · rw [if_pos hsid] at h
      exact ih acc d h hacc
    · rw [if_neg hsid] at h
      cases hns : negSkip p.steam_id with
      | error e => rw [hns] at h; exact absurd h (by simp)
      | ok b =>
        cases b with
        | true => rw [hns] at h; exact ih acc d h hacc
        | false =>
          rw [hns] at h
          cases hg : alGet acc p.steam_id with
          | some ex =>
            rw [hg] at h
            apply ih _ d h
            intro kv hkv
            rcases alSet_mem hkv with h1 | h1
            · exact hacc kv h1
            · rw [h1]
              have hexinv := hacc _ (alGet_eq_some hg)
              refine ⟨?_, hsid, hns⟩
              show (mergeInto ex p).steam_id = p.steam_id
              rw [mergeInto_steam_id (by rw [hexinv.1]; exact hexinv.2.1)]
              exact hexinv.1
          | none =>
            rw [hg] at h
            apply ih _ d h
            intro kv hkv
            rcases List.mem_append.mp hkv with h1 | h1
            · exact hacc kv h1
            · have h2 : kv = (p.steam_id, p) := by simpa using h1
              rw [h2]
              exact ⟨rfl, hsid, hns⟩

/-- C5: a record flagged by the negative-id test never survives the merge
(for every input list), and in the parse-plus-merge pipeline every roster id
is a digit string whose Python integer value is non-negative — so for every
negative id value, the merged roster never contains that id. -/
theorem c5_negative_ids_dropped :
    (∀ (ps out : List Player), mergePlayerData ps = .ok out →
      ∀ r ∈ out, negSkip r.steam_id = .ok false) ∧
    (∀ (resp : String) (roster : List Player), plysRoster resp = .ok roster →
      ∀ r ∈ roster, isPyDigitStr r.steam_id = true ∧
        negativeIdVal r.steam_id = false) := by
  constructor
  · intro ps out h r hr
    unfold mergePlayerData at h
    cases hfp : firstPass ps with
    | error e => rw [hfp] at h; exact absurd h (by simp)
    | ok co =>
      obtain ⟨conn, onl⟩ := co
      rw [hfp] at h
      cases hsp : secondPass ps with
      | error e => rw [hsp] at h; exact absurd h (by simp)
      | ok d =>
        rw [hsp] at h
        have h' : (Except.ok (List.insertionSort rosterLE
            ((thirdPass conn onl d).map Prod.snd)) : Except Unit (List Player))
            = .ok out := h
        simp only [Except.ok.injEq] at h'
        subst h'
        rw [List.mem_insertionSort] at hr
        obtain ⟨kv, hkv, hsnd⟩ := List.mem_map.mp hr
        obtain ⟨kv0, hkv0, hkveq⟩ := thirdPass_mem hkv
        have hval := secondPassGo_noNeg ps [] d hsp (by simp) kv0 hkv0
        have hrid : r.steam_id = kv0.1 := by
          rw [← hsnd, hkveq]
          exact hval.1
        rw [hrid]
        exact hval.2.2
  · intro resp roster h r hr
    obtain ⟨_, p, hp, hpk⟩ := plysRoster_elem h r hr
    rw [← hpk]
    exact ⟨parsedPlayers_digits p hp,
      negativeIdVal_of_digits (parsedPlayers_digits p hp)⟩

/-- Witness for C5: a negative-id record is dropped while its digit-id
companion survives with a non-negative id. -/
theorem c5_negative_ids_dropped_witness :
    negSkip "7" = Except.ok false ∧ negativeIdVal "100" = false :=
  ⟨c5_negative_ids_dropped.1
      [⟨"-5", "Neg", "Online", "", "", "", "", 0, none⟩,
       ⟨"7", "Bob", "Online", "", "", "", "", 0, none⟩]
      [⟨"7", "Bob", "Online", "", "", "", "", 0, none⟩]
      (by rfl)
      ⟨"7", "Bob", "Online", "", "", "", "", 0, none⟩
      (List.mem_singleton.mpr rfl),
   (c5_negative_ids_dropped.2 respW rosterW (by rfl)
      ⟨"100", "Bob", "Online", "Earth", "1.2.3.4", "AB", "Player", 0, some 55⟩
      (by simp [rosterW])).2⟩

/-! ## Claim C6: one record per id, deterministic sort -/

/-- C6: the merged roster has exactly one record per distinct id — its id
list is duplicate-free and every parsed record's id is represented, and
conversely every roster id comes from a parsed record — and the output is
sorted with Online records before Offline records and, within a status
group, ascending by case-insensitive name. -/
theorem c6_unique_ids_sorted :
    ∀ (resp : String) (roster : List Player), plysRoster resp = .ok roster →
      (roster.map Player.steam_id).Nodup ∧
      (∀ sec p, (sec, p) ∈ parsePlys resp → ∃ r ∈ roster, r.steam_id = p.steam_id) ∧
      (∀ r ∈ roster, ∃ p ∈ parsedPlayers resp, p.steam_id = r.steam_id) ∧
      roster.Pairwise (fun a b =>
        (a.status = "Online" ∧ b.status = "Offline") ∨
        (a.status = b.status ∧
          lexLeChars (pyLower a.name).data (pyLower b.name).data = true)) := by
  intro resp roster h
  obtain ⟨d, heq, hkeys, hnd, hval⟩ := plysRoster_structure resp
  rw [h] at heq
  simp only [Except.ok.injEq] at heq
  refine ⟨?_, ?_, ?_, ?_⟩
  · subst heq
    have hperm := (List.perm_insertionSort rosterLE
      ((thirdPass (connIdsSpec (parsedPlayers resp)) (onlIdsSpec (parsedPlayers resp))
        d).map Prod.snd)).map Player.steam_id
    have hids : ((thirdPass (connIdsSpec (parsedPlayers resp))
        (onlIdsSpec (parsedPlayers resp)) d).map Prod.snd).map Player.steam_id
        = keysOf d := by
      rw [List.map_map]
      have hpw : ∀ kv ∈ thirdPass (connIdsSpec (parsedPlayers resp))
          (onlIdsSpec (parsedPlayers resp)) d,
          (Player.steam_id ∘ Prod.snd) kv = Prod.fst kv := by
        intro kv hkv
        obtain ⟨kv0, hkv0, hkveq⟩ := thirdPass_mem hkv
        rw [hkveq]
        show kv0.2.steam_id = kv0.1
        exact (hval kv0 hkv0).1
      rw [List.map_congr_left hpw]
      exact keysOf_thirdPass _ _ d
    rw [hperm.nodup_iff, hids]
    exact hnd
  · intro sec p hp
    obtain ⟨r, hr, hrk, _⟩ := plysRoster_has_id h
      ⟨p, List.mem_map.mpr ⟨(sec, p), hp, rfl⟩, rfl⟩
    exact ⟨r, hr, hrk⟩
  · intro r hr
    exact (plysRoster_elem h r hr).2
  · have hsorted := List.sorted_insertionSort rosterLE
      ((thirdPass (connIdsSpec (parsedPlayers resp)) (onlIdsSpec (parsedPlayers resp))
        d).map Prod.snd)
    rw [← heq] at hsorted
    refine List.Pairwise.imp_of_mem ?_ hsorted
    intro a b ha hb hab
    have hsa := (plysRoster_elem h a ha).1
    have hsb := (plysRoster_elem h b hb).1
    exact sortLe_cases hab
      (hsa ▸ statusOf_cases _ _ a.steam_id)
      (hsb ▸ statusOf_cases _ _ b.steam_id)

/-- Witness for C6 at the concrete response `respW`. -/
theorem c6_unique_ids_sorted_witness :
    (rosterW.map Player.steam_id).Nodup ∧
    rosterW.Pairwise (fun a b =>
      (a.status = "Online" ∧ b.status = "Offline") ∨
      (a.status = b.status ∧
        lexLeChars (pyLower a.name).data (pyLower b.name).data = true)) :=
  ⟨(c6_unique_ids_sorted respW rosterW (by rfl)).1,
   (c6_unique_ids_sorted respW rosterW (by rfl)).2.2.2⟩

end EWH
